import Mathlib

/-! AWS Batch job queue resource: convergence waits and reconciliation.

A shallow embedding of `internal/service/batch/job_queue.go` together with a
model of the convergence waiter it drives, of the string helpers of
`internal/framework/flex/string.go`, and of the `Read` methods of the
Timestream Write table and database data sources.

* Go pointers (`*string`, `*int64`) are `Option`s, `nil` being `none`.
* A Go `error` is a value of `GoError`; `GoError.Error` is its message.
* The remote Batch API is a scripted connection `Conn`: each API method has
  the list of replies it will give, in order, and every call is appended to
  the trace `Conn.calls`.  A method whose script is used up halts the run
  (`Run.exhausted`): the model has no reply to give.
* Durations are natural numbers of nanoseconds, as `time.Duration` is.
-/

set_option autoImplicit false

/-! ## Go runtime values -/

/-- Outcome of running modelled code: a normal return, a Go runtime panic
(nil pointer dereference), or a scripted reply that is missing. -/
inductive Run (α : Type) where
  | ok (a : α)
  | panic
  | exhausted
  deriving DecidableEq, Repr

/-- Go `error` values that occur in the job queue code. -/
inductive GoError where
  /-- an error returned by the Batch API client -/
  | api (message : String)
  /-- `fmt.Errorf("Multiple Job Queues with name %s", sn)` -/
  | multipleJobQueues (sn : String)
  /-- the waiter met a status that is neither pending nor target -/
  | unexpectedStatus (status : String) (target : List String)
  /-- the waiter found the object gone although the wait is not for deletion -/
  | unexpectedDisappearance (target : List String)
  /-- the waiter ran out of its time budget -/
  | timedOut (lastStatus : Option String)
  deriving DecidableEq, Repr

/-- Message of an error, Go's `err.Error()`. The texts of the three waiter
errors stand in for the SDK's own, which the job queue code never inspects. -/
def GoError.Error : GoError → String
  | .api message => message
  | .multipleJobQueues sn => "Multiple Job Queues with name " ++ sn
  | .unexpectedStatus status _ => "unexpected status " ++ status
  | .unexpectedDisappearance _ => "unexpected disappearance"
  | .timedOut _ => "timeout while waiting for status"

/-- Reply of a remote call: Go's `(output, err)` pair. -/
inductive Reply (α : Type) where
  | ok (output : α)
  | err (e : GoError)
  deriving DecidableEq, Repr

namespace time

/-- One second, `time.Second`, in nanoseconds. -/
def Second : Nat := 1000000000

/-- One minute, `time.Minute`. -/
def Minute : Nat := 60 * Second

end time

/-! ## The Batch API shapes (package `batch` of the AWS SDK) -/

namespace batch

/-- SDK constant `batch.JQStatusCreating`. -/
def JQStatusCreating : String := "CREATING"
/-- SDK constant `batch.JQStatusUpdating`. -/
def JQStatusUpdating : String := "UPDATING"
/-- SDK constant `batch.JQStatusDeleting`. -/
def JQStatusDeleting : String := "DELETING"
/-- SDK constant `batch.JQStatusDeleted`. -/
def JQStatusDeleted : String := "DELETED"
/-- SDK constant `batch.JQStatusValid`. -/
def JQStatusValid : String := "VALID"
/-- SDK constant `batch.JQStatusInvalid`. -/
def JQStatusInvalid : String := "INVALID"
/-- SDK constant `batch.JQStateEnabled`. -/
def JQStateEnabled : String := "ENABLED"
/-- SDK constant `batch.JQStateDisabled`. -/
def JQStateDisabled : String := "DISABLED"

/-- SDK struct `batch.ComputeEnvironmentOrder`. -/
structure ComputeEnvironmentOrder where
  Order : Option Int
  ComputeEnvironment : Option String
  deriving DecidableEq, Repr

/-- SDK struct `batch.JobQueueDetail` (the fields the resource reads). -/
structure JobQueueDetail where
  JobQueueArn : Option String
  JobQueueName : Option String
  ComputeEnvironmentOrder : List ComputeEnvironmentOrder
  Priority : Option Int
  SchedulingPolicyArn : Option String
  State : Option String
  Status : Option String
  Tags : List (String × String)
  deriving DecidableEq, Repr

/-- SDK struct `batch.CreateJobQueueInput`; a nil slice is the empty list. -/
structure CreateJobQueueInput where
  ComputeEnvironmentOrder : List ComputeEnvironmentOrder
  JobQueueName : Option String
  Priority : Option Int
  State : Option String
  Tags : List (String × String)
  SchedulingPolicyArn : Option String
  deriving DecidableEq, Repr

/-- SDK struct `batch.CreateJobQueueOutput`. -/
structure CreateJobQueueOutput where
  JobQueueArn : Option String
  JobQueueName : Option String
  deriving DecidableEq, Repr

/-- SDK struct `batch.UpdateJobQueueInput`; a nil slice is the empty list. -/
structure UpdateJobQueueInput where
  JobQueue : Option String
  ComputeEnvironmentOrder : List ComputeEnvironmentOrder
  Priority : Option Int
  State : Option String
  SchedulingPolicyArn : Option String
  deriving DecidableEq, Repr

/-- SDK struct `batch.DeleteJobQueueInput`. -/
structure DeleteJobQueueInput where
  JobQueue : Option String
  deriving DecidableEq, Repr

/-- SDK struct `batch.DescribeJobQueuesInput`. -/
structure DescribeJobQueuesInput where
  JobQueues : List (Option String)
  deriving DecidableEq, Repr

/-- SDK struct `batch.DescribeJobQueuesOutput`. -/
structure DescribeJobQueuesOutput where
  JobQueues : List JobQueueDetail
  deriving DecidableEq, Repr

/-- One remote call, as recorded in the trace of a connection. -/
inductive Call where
  | CreateJobQueue (input : CreateJobQueueInput)
  | UpdateJobQueue (input : UpdateJobQueueInput)
  | DeleteJobQueue (input : DeleteJobQueueInput)
  | DescribeJobQueues (input : DescribeJobQueuesInput)
  deriving DecidableEq, Repr

/-- A scripted `DescribeJobQueues` reply and the time the call takes. -/
structure Probe where
  latency : Nat
  reply : Reply DescribeJobQueuesOutput
  deriving DecidableEq, Repr

/-- The scripted Batch connection (`*batch.Batch`): the replies each method
still has to give, and the calls made so far, oldest first. -/
structure Conn where
  createJobQueue : List (Reply CreateJobQueueOutput)
  updateJobQueue : List (Option GoError)
  deleteJobQueue : List (Option GoError)
  describeJobQueues : List Probe
  calls : List Call
  deriving DecidableEq, Repr

/-- Method `conn.CreateJobQueueWithContext`: one call, one scripted reply. -/
def Conn.CreateJobQueueWithContext (conn : Conn) (input : CreateJobQueueInput) :
    Run (Reply CreateJobQueueOutput × Conn) :=
  match conn.createJobQueue with
  | [] => .exhausted
  | r :: rest =>
    .ok (r, { conn with createJobQueue := rest, calls := conn.calls ++ [.CreateJobQueue input] })

/-- Method `conn.UpdateJobQueueWithContext`; the output is unused by the
resource, so the reply is the error alone. -/
def Conn.UpdateJobQueueWithContext (conn : Conn) (input : UpdateJobQueueInput) :
    Run (Option GoError × Conn) :=
  match conn.updateJobQueue with
  | [] => .exhausted
  | r :: rest =>
    .ok (r, { conn with updateJobQueue := rest, calls := conn.calls ++ [.UpdateJobQueue input] })

/-- Method `conn.DeleteJobQueueWithContext`. -/
def Conn.DeleteJobQueueWithContext (conn : Conn) (input : DeleteJobQueueInput) :
    Run (Option GoError × Conn) :=
  match conn.deleteJobQueue with
  | [] => .exhausted
  | r :: rest =>
    .ok (r, { conn with deleteJobQueue := rest, calls := conn.calls ++ [.DeleteJobQueue input] })

end batch

/-! ## The convergence waiter (`retry.StateChangeConf`) -/

namespace retry

/-- A Go `interface{}` value as the refresh function produces it: a
`*batch.JobQueueDetail` or an `int`. -/
inductive Iface where
  | jobQueue (d : batch.JobQueueDetail)
  | int (n : Int)
  deriving DecidableEq, Repr

/-- Result of one call of a `retry.StateRefreshFunc`:
`(interface{}, string, error)`. -/
structure Refreshed where
  result : Option Iface
  state : String
  err : Option GoError
  deriving DecidableEq, Repr

/-- Modelled from the spec: the classes of the error classifier interface,
`(error) -> {Transient, Fatal}`. -/
inductive ErrorClass where
  | Transient
  | Fatal
  deriving DecidableEq, Repr

/-- Modelled from the spec: `ObservedState`, the remote object as last fetched,
its status label and its presence flag. -/
structure ObservedState where
  object : Option Iface
  status : String
  present : Bool
  deriving DecidableEq, Repr

/-- Modelled from the spec: `PollOutcome`, the tagged result of one probe. -/
inductive PollOutcome where
  | Observed (o : ObservedState)
  | ProbeError (err : GoError)
  deriving DecidableEq, Repr

/-- Modelled from the spec: the failure kinds of the waiter in the error
taxonomy. -/
inductive Classification where
  | FatalProbeError
  | UnexpectedStatus
  deriving DecidableEq, Repr

/-- Modelled from the spec: `ReconciliationResult`, the terminal result of a
wait; a failure keeps the last observed state, which the spec attaches to it. -/
inductive ReconciliationResult where
  | Success (observed : ObservedState)
  | Timeout (lastObserved : Option ObservedState)
  | Failed (error : GoError) (classification : Classification)
      (lastObserved : Option ObservedState)
  deriving DecidableEq, Repr

/-- Modelled from the spec: `WaitSpec`, the immutable parameters of one wait. -/
structure WaitSpec where
  pendingStatuses : List String
  targetStatuses : List String
  timeout : Nat
  initialDelay : Nat
  pollInterval : Nat
  minPollInterval : Nat
  deriving DecidableEq, Repr

/-- Modelled from the spec: the two collaborators of the waiter that neither
the job queue code nor the wait parameters fix: the error classifier, and the test whether a target
set stands for deletion. They are parameters of every wait. -/
structure WaitPolicy where
  classify : GoError → ErrorClass
  representsDeleted : List String → Bool

/-- Modelled from the spec: the time slept between two probes, the poll
interval, never less than the minimum poll interval. -/
def WaitSpec.interval (spec : WaitSpec) : Nat :=
  max spec.pollInterval spec.minPollInterval

/-- What one probe makes the waiter do: stop with a result, or go on with the
given last observation. -/
inductive Step where
  | done (r : ReconciliationResult)
  | again (last : Option ObservedState)
  deriving DecidableEq, Repr

/-- Modelled from the spec: the per-probe case analysis of the Convergence
Waiter (the body of `retry.StateChangeConf.WaitForStateContext`, which lives
in the plugin SDK and not in this repository's sources). In order: a permanent
probe error fails; a transient one counts as pending; an absent object succeeds
when the target set stands for deletion and fails otherwise; a target status
succeeds with the observed object; a pending status goes on; any other status
fails. -/
def classifyOutcome (P : WaitPolicy) (spec : WaitSpec) (last : Option ObservedState) :
    PollOutcome → Step
  | .ProbeError err =>
    match P.classify err with
    | .Fatal => .done (.Failed err .FatalProbeError last)
    | .Transient => .again last
  | .Observed o =>
    if o.present = false then
      if P.representsDeleted spec.targetStatuses then .done (.Success o)
      else .done (.Failed (.unexpectedDisappearance spec.targetStatuses) .UnexpectedStatus last)
    else if o.status ∈ spec.targetStatuses then .done (.Success o)
    else if o.status ∈ spec.pendingStatuses then .again (some o)
    else .done (.Failed (.unexpectedStatus o.status spec.targetStatuses) .UnexpectedStatus (some o))

/-- A probe as the waiter sees it: how long the call took, and its outcome
(`none` when the refresh function panicked). -/
structure Timed where
  latency : Nat
  outcome : Option PollOutcome
  deriving DecidableEq, Repr

/-- Modelled from the spec: the polling loop of the Convergence Waiter
(`WaitForStateContext` of the plugin SDK, absent from the sources). The probes
the prober will answer are the list argument; `first` marks the first
iteration, `elapsed` is the wall time since the wait began and `last` the last
observation. Before every iteration but the first the elapsed time is checked
against the timeout; between iterations the waiter sleeps `spec.interval`.
The result comes with the number of probes made. Cancellation by the caller is
not modelled: the context is never cancelled. -/
def waitLoop (P : WaitPolicy) (spec : WaitSpec) :
    List Timed → Bool → Nat → Option ObservedState → Run (ReconciliationResult × Nat)
  | [], first, elapsed, last =>
    if first = false ∧ spec.timeout < elapsed then .ok (.Timeout last, 0) else .exhausted
  | p :: rest, first, elapsed, last =>
    if first = false ∧ spec.timeout < elapsed then .ok (.Timeout last, 0)
    else
      match p.outcome with
      | none => .panic
      | some out =>
        match classifyOutcome P spec last out with
        | .done r => .ok (r, 1)
        | .again last1 =>
          match waitLoop P spec rest false (elapsed + p.latency + spec.interval) last1 with
          | .ok (r, n) => .ok (r, n + 1)
          | .panic => .panic
          | .exhausted => .exhausted

/-- Modelled from the spec: `Wait(prober, spec)`, the Convergence Waiter. The
initial delay passes before the first probe. -/
def Wait (P : WaitPolicy) (spec : WaitSpec) (probes : List Timed) :
    Run (ReconciliationResult × Nat) :=
  waitLoop P spec probes true spec.initialDelay none

/-- Modelled from the spec: the Go pair `(interface{}, error)` that
`WaitForStateContext` returns for a wait result: the observed object and nil on
success, the last observed object and the error otherwise. -/
def ReconciliationResult.toGo : ReconciliationResult → Option Iface × Option GoError
  | .Success o => (o.object, none)
  | .Timeout last =>
    (last.bind (fun o => o.object), some (.timedOut (last.map (fun o => o.status))))
  | .Failed e _ last => (last.bind (fun o => o.object), some e)

/-- The struct `retry.StateChangeConf`, without its `Refresh` closure, which
is passed alongside. `PollInterval` is never set by the job queue code and
keeps its zero value. -/
structure StateChangeConf where
  Pending : List String
  Target : List String
  Timeout : Nat
  Delay : Nat
  MinTimeout : Nat
  PollInterval : Nat := 0
  deriving DecidableEq, Repr

/-- Modelled from the spec: the wait parameters a `StateChangeConf` stands
for; `Delay` is the initial delay and `MinTimeout` the minimum poll interval. -/
def StateChangeConf.toWaitSpec (conf : StateChangeConf) : WaitSpec :=
  { pendingStatuses := conf.Pending
    targetStatuses := conf.Target
    timeout := conf.Timeout
    initialDelay := conf.Delay
    pollInterval := conf.PollInterval
    minPollInterval := conf.MinTimeout }

/-- Modelled from the spec: the probe outcome a refresh result stands for, by
the Status Prober interface: an error is a probe error,
otherwise the object is observed, present exactly when the result is not
nil. -/
def Refreshed.toPollOutcome (r : Refreshed) : PollOutcome :=
  match r.err with
  | some e => .ProbeError e
  | none => .Observed { object := r.result, status := r.state, present := r.result.isSome }

end retry

/-! ## Terraform plugin framework values -/

namespace basetypes

/-- A framework attribute value: null, unknown, or known. -/
inductive Value (α : Type) where
  | null
  | unknown
  | known (v : α)
  deriving DecidableEq, Repr

/-- Method `IsNull`. -/
def Value.IsNull {α : Type} : Value α → Bool
  | .null => true
  | _ => false

/-- Method `IsUnknown`. -/
def Value.IsUnknown {α : Type} : Value α → Bool
  | .unknown => true
  | _ => false

/-- Method `Equal`: same state and, when known, same value. -/
def Value.Equal {α : Type} [DecidableEq α] (a b : Value α) : Bool :=
  decide (a = b)

/-- The type `types.String`. -/
abbrev StringValue := Value String

/-- The type `types.Int64`. -/
abbrev Int64Value := Value Int

/-- The type `types.List` with string-like elements. -/
abbrev ListValue := Value (List (Value String))

/-- The type `types.Map` of strings. -/
abbrev MapValue := Value (List (String × String))

/-- Method `ValueString`: the known value, the empty string otherwise. -/
def ValueString : StringValue → String
  | .known s => s
  | _ => ""

end basetypes

namespace fwtypes

/-- The custom type `fwtypes.ARN`, a string-like value. -/
abbrev ARN := basetypes.Value String

end fwtypes

namespace timeouts

/-- The `timeouts` block value: the configured durations, when given. -/
structure Value where
  Create : Option Nat
  Update : Option Nat
  Delete : Option Nat
  deriving DecidableEq, Repr

end timeouts

namespace diag

/-- Severity of a diagnostic. -/
inductive Severity where
  | Error
  | Warning
  deriving DecidableEq, Repr

/-- The action names of package `create` that the resource uses. -/
inductive ErrAction where
  | Creating
  | Updating
  | Deleting
  | WaitingForCreation
  | WaitingForDeletion
  | Reading
  deriving DecidableEq, Repr

/-- Summary line of a diagnostic: a literal text, or the standard problem
message `create.ProblemStandardMessage(service, action, resource, id, nil)`,
kept by its arguments. -/
inductive Summary where
  | text (s : String)
  | problem (service : String) (action : ErrAction) (resource : String) (id : String)
  deriving DecidableEq, Repr

/-- One diagnostic. -/
structure Diagnostic where
  severity : Severity
  summary : Summary
  detail : String
  deriving DecidableEq, Repr

/-- The list type `diag.Diagnostics`. -/
abbrev Diagnostics := List Diagnostic

/-- Method `HasError`. -/
def HasError (ds : Diagnostics) : Bool :=
  ds.any (fun d => decide (d.severity = .Error))

/-- Method `AddError`. -/
def AddError (ds : Diagnostics) (summary : Summary) (detail : String) : Diagnostics :=
  ds ++ [{ severity := .Error, summary := summary, detail := detail }]

end diag

namespace flex

open basetypes

/-- Function `StringFromFramework`: a null String gives a nil pointer; the
expansion leaves the pointer nil for an unknown value as well. -/
def StringFromFramework : StringValue → Option String
  | .known s => some s
  | _ => none

/-- Function `StringToFramework`: a nil pointer gives a null String. -/
def StringToFramework : Option String → StringValue
  | none => .null
  | some s => .known s

/-- Helper `aws.ToString`: the pointed-to string, empty for nil. -/
def ToString (p : Option String) : String :=
  p.getD ""

/-- Helper `aws.ToInt64`: the pointed-to integer, zero for nil. -/
def ToInt64 (p : Option Int) : Int :=
  p.getD 0

/-- Function `StringToFrameworkLegacy`: a nil pointer gives an empty String. -/
def StringToFrameworkLegacy (v : Option String) : StringValue :=
  .known (ToString v)

/-- The marshalling helpers of package `flex` that the resource calls and
whose sources are not part of this development; they are parameters. -/
structure Marshal where
  ExpandFrameworkStringValueList : ListValue → List String
  FlattenFrameworkStringValueListLegacy : List String → ListValue
  Int64FromFramework : Int64Value → Option Int
  Int64ToFrameworkLegacy : Option Int → Int64Value
  StringToFrameworkARN : Option String → fwtypes.ARN × diag.Diagnostics

/-- A plain instance of the helpers, for evaluating the resource on concrete
inputs: known values map to their contents and back, nil to the legacy zero
value, and every ARN string is accepted. -/
def Marshal.plain : Marshal where
  ExpandFrameworkStringValueList := fun l =>
    match l with
    | .known xs => xs.map ValueString
    | _ => []
  FlattenFrameworkStringValueListLegacy := fun xs => .known (xs.map Value.known)
  Int64FromFramework := fun v =>
    match v with
    | .known n => some n
    | _ => none
  Int64ToFrameworkLegacy := fun p => .known (ToInt64 p)
  StringToFrameworkARN := fun p =>
    match p with
    | none => (.null, [])
    | some s => (.known s, [])

end flex

/-! ## The job queue resource (`internal/service/batch/job_queue.go`) -/

namespace batch

open basetypes retry

/-- The struct `resourceJobQueue`: the default timeouts of
`framework.WithTimeouts`. -/
structure resourceJobQueue where
  defaultCreateTimeout : Nat
  defaultUpdateTimeout : Nat
  defaultDeleteTimeout : Nat
  deriving DecidableEq, Repr

/-- The constructor `newResourceJobQueue`. -/
def newResourceJobQueue : resourceJobQueue :=
  { defaultCreateTimeout := 10 * time.Minute
    defaultUpdateTimeout := 10 * time.Minute
    defaultDeleteTimeout := 10 * time.Minute }

/-- Method `CreateTimeout` of `framework.WithTimeouts`: the configured
duration, the default when none is configured. -/
def resourceJobQueue.CreateTimeout (r : resourceJobQueue) (t : timeouts.Value) : Nat :=
  t.Create.getD r.defaultCreateTimeout

/-- Method `UpdateTimeout` of `framework.WithTimeouts`. -/
def resourceJobQueue.UpdateTimeout (r : resourceJobQueue) (t : timeouts.Value) : Nat :=
  t.Update.getD r.defaultUpdateTimeout

/-- Method `DeleteTimeout` of `framework.WithTimeouts`. -/
def resourceJobQueue.DeleteTimeout (r : resourceJobQueue) (t : timeouts.Value) : Nat :=
  t.Delete.getD r.defaultDeleteTimeout

/-- Constant `ResNameJobQueue`. -/
def ResNameJobQueue : String := "Job Queue"

/-- The struct `resourceJobQueueData`. -/
structure resourceJobQueueData where
  ARN : StringValue
  ComputeEnvironments : ListValue
  ID : StringValue
  Name : StringValue
  Priority : Int64Value
  SchedulingPolicyARN : fwtypes.ARN
  State : StringValue
  Tags : MapValue
  TagsAll : MapValue
  Timeouts : timeouts.Value
  deriving DecidableEq, Repr

/-- Function `expandComputeEnvironmentOrder`, with the index of the next
element: the loop `for i, env := range order`. -/
def expandComputeEnvironmentOrderFrom : Nat → List String → List ComputeEnvironmentOrder
  | _, [] => []
  | i, env :: rest =>
    { Order := some (i : Int), ComputeEnvironment := some env } ::
      expandComputeEnvironmentOrderFrom (i + 1) rest

/-- Function `expandComputeEnvironmentOrder`. -/
def expandComputeEnvironmentOrder (order : List String) : List ComputeEnvironmentOrder :=
  expandComputeEnvironmentOrderFrom 0 order

/-- Function `flattenComputeEnvironmentOrder`: sort by `Order`, then take the
compute environment names. `sort.Slice` is not stable; the insertion sort used
here agrees with it whenever the orders are pairwise distinct. -/
def flattenComputeEnvironmentOrder (apiObject : List ComputeEnvironmentOrder) : List String :=
  (apiObject.insertionSort (fun a b => flex.ToInt64 a.Order ≤ flex.ToInt64 b.Order)).map
    (fun v => flex.ToString v.ComputeEnvironment)

/-- Method `refreshFromOutput`; `setTagsOut` writes to the context only and
leaves the data untouched. -/
def resourceJobQueueData.refreshFromOutput (M : flex.Marshal) (r : resourceJobQueueData)
    (out : JobQueueDetail) : resourceJobQueueData × diag.Diagnostics :=
  let arn := M.StringToFrameworkARN out.SchedulingPolicyArn
  ({ r with
      ARN := flex.StringToFrameworkLegacy out.JobQueueArn
      Name := flex.StringToFramework out.JobQueueName
      ComputeEnvironments :=
        M.FlattenFrameworkStringValueListLegacy
          (flattenComputeEnvironmentOrder out.ComputeEnvironmentOrder)
      Priority := M.Int64ToFrameworkLegacy out.Priority
      SchedulingPolicyARN := arn.1
      State := flex.StringToFrameworkLegacy out.State },
   arn.2)

/-- Function `findJobQueueByName` after the `DescribeJobQueues` call has
answered: the `(*batch.JobQueueDetail, error)` pair it returns. -/
def findJobQueueByNameReply (sn : String) :
    Reply DescribeJobQueuesOutput → Option JobQueueDetail × Option GoError
  | .err e => (none, some e)
  | .ok resp =>
    match resp.JobQueues with
    | [] => (none, none)
    | [q] => (some q, none)
    | _ :: _ :: _ => (none, some (.multipleJobQueues sn))

/-- The request `findJobQueueByName` sends. -/
def describeOpts (sn : String) : DescribeJobQueuesInput :=
  { JobQueues := [some sn] }

/-- Function `findJobQueueByName`: one `DescribeJobQueues` call. -/
def findJobQueueByName (conn : Conn) (sn : String) :
    Run ((Option JobQueueDetail × Option GoError) × Conn) :=
  match conn.describeJobQueues with
  | [] => .exhausted
  | p :: rest =>
    .ok (findJobQueueByNameReply sn p.reply,
      { conn with
        describeJobQueues := rest
        calls := conn.calls ++ [.DescribeJobQueues (describeOpts sn)] })

/-- A `retry.StateRefreshFunc` over the scripted connection: the request each
call sends and what the closure returns for a reply (`none`: it panics). -/
structure StateRefreshFunc where
  input : DescribeJobQueuesInput
  onReply : Reply DescribeJobQueuesOutput → Option Refreshed

/-- Function `jobQueueRefreshStatusFunc`: an error is passed on; a missing
queue is reported as the object `42` with status `DELETED`; a queue is
reported with its own status, whose nil pointer would be dereferenced. -/
def jobQueueRefreshStatusFunc (sn : String) : StateRefreshFunc where
  input := describeOpts sn
  onReply := fun reply =>
    match findJobQueueByNameReply sn reply with
    | (_, some err) => some { result := none, state := "", err := some err }
    | (none, none) => some { result := some (.int 42), state := JQStatusDeleted, err := none }
    | (some ce, none) =>
      match ce.Status with
      | none => none
      | some status => some { result := some (.jobQueue ce), state := status, err := none }

/-- The probes a wait will see when it refreshes over the given script. -/
def StateRefreshFunc.probes (f : StateRefreshFunc) (script : List Probe) : List Timed :=
  script.map (fun p =>
    { latency := p.latency, outcome := (f.onReply p.reply).map Refreshed.toPollOutcome })

/-- Modelled from the spec: method `WaitForStateContext` of the plugin SDK,
over the scripted connection: the waiter runs
on the probes the refresh function yields; the probes it made are taken off
the script and recorded in the trace. -/
def WaitForStateContext (P : WaitPolicy) (conf : StateChangeConf) (Refresh : StateRefreshFunc)
    (conn : Conn) : Run ((Option Iface × Option GoError) × Conn) :=
  match Wait P conf.toWaitSpec (Refresh.probes conn.describeJobQueues) with
  | .ok (r, n) =>
    .ok (r.toGo,
      { conn with
        describeJobQueues := conn.describeJobQueues.drop n
        calls := conn.calls ++ List.replicate n (.DescribeJobQueues Refresh.input) })
  | .panic => .panic
  | .exhausted => .exhausted

/-- The type assertion `outputRaw.(*batch.JobQueueDetail)` and the return that
follows it in the three `waitJobQueue*` functions. -/
def assertJobQueueDetail : Option Iface × Option GoError → Option JobQueueDetail × Option GoError
  | (some (.jobQueue output), err) => (some output, err)
  | (_, err) => (none, err)

/-- The `StateChangeConf` built in `disableJobQueue`. -/
def disableJobQueueConf (timeout : Nat) : StateChangeConf :=
  { Pending := [JQStatusUpdating]
    Target := [JQStatusValid]
    Timeout := timeout
    Delay := 10 * time.Second
    MinTimeout := 3 * time.Second }

/-- The `StateChangeConf` built in `waitJobQueueCreated`. -/
def waitJobQueueCreatedConf (timeout : Nat) : StateChangeConf :=
  { Pending := [JQStatusCreating, JQStatusUpdating]
    Target := [JQStatusValid]
    Timeout := timeout
    MinTimeout := 10 * time.Second
    Delay := 30 * time.Second }

/-- The `StateChangeConf` built in `waitJobQueueUpdated`. -/
def waitJobQueueUpdatedConf (timeout : Nat) : StateChangeConf :=
  { Pending := [JQStatusUpdating]
    Target := [JQStatusValid]
    Timeout := timeout
    MinTimeout := 10 * time.Second
    Delay := 30 * time.Second }

/-- The `StateChangeConf` built in `waitJobQueueDeleted`. -/
def waitJobQueueDeletedConf (timeout : Nat) : StateChangeConf :=
  { Pending := [JQStateDisabled, JQStatusDeleting]
    Target := [JQStatusDeleted]
    Timeout := timeout
    MinTimeout := 10 * time.Second
    Delay := 30 * time.Second }

/-- The request `disableJobQueue` sends: only the queue and the state
`DISABLED` are set. -/
def disableInput (id : String) : UpdateJobQueueInput :=
  { JobQueue := some id, ComputeEnvironmentOrder := [], Priority := none,
    State := some JQStateDisabled, SchedulingPolicyArn := none }

/-- Function `disableJobQueue`: update the state to `DISABLED`, then wait for
status `VALID`. -/
def disableJobQueue (P : WaitPolicy) (conn : Conn) (id : String) (timeout : Nat) :
    Run (Option GoError × Conn) :=
  match conn.UpdateJobQueueWithContext (disableInput id) with
  | .panic => .panic
  | .exhausted => .exhausted
  | .ok (some err, conn1) => .ok (some err, conn1)
  | .ok (none, conn1) =>
    match WaitForStateContext P (disableJobQueueConf timeout) (jobQueueRefreshStatusFunc id)
        conn1 with
    | .panic => .panic
    | .exhausted => .exhausted
    | .ok ((_, err), conn2) => .ok (err, conn2)

/-- Function `waitJobQueueCreated`. -/
def waitJobQueueCreated (P : WaitPolicy) (conn : Conn) (id : String) (timeout : Nat) :
    Run ((Option JobQueueDetail × Option GoError) × Conn) :=
  match WaitForStateContext P (waitJobQueueCreatedConf timeout) (jobQueueRefreshStatusFunc id)
      conn with
  | .panic => .panic
  | .exhausted => .exhausted
  | .ok (raw, conn1) => .ok (assertJobQueueDetail raw, conn1)

/-- Function `waitJobQueueUpdated`. -/
def waitJobQueueUpdated (P : WaitPolicy) (conn : Conn) (id : String) (timeout : Nat) :
    Run ((Option JobQueueDetail × Option GoError) × Conn) :=
  match WaitForStateContext P (waitJobQueueUpdatedConf timeout) (jobQueueRefreshStatusFunc id)
      conn with
  | .panic => .panic
  | .exhausted => .exhausted
  | .ok (raw, conn1) => .ok (assertJobQueueDetail raw, conn1)

/-- Function `waitJobQueueDeleted`. -/
def waitJobQueueDeleted (P : WaitPolicy) (conn : Conn) (id : String) (timeout : Nat) :
    Run ((Option JobQueueDetail × Option GoError) × Conn) :=
  match WaitForStateContext P (waitJobQueueDeletedConf timeout) (jobQueueRefreshStatusFunc id)
      conn with
  | .panic => .panic
  | .exhausted => .exhausted
  | .ok (raw, conn1) => .ok (assertJobQueueDetail raw, conn1)

end batch

namespace batch

open basetypes retry

/-- What `request.Plan.Get` or `request.State.Get` yields: the decoded data
and the diagnostics of decoding. -/
structure Decoded where
  data : resourceJobQueueData
  diags : diag.Diagnostics
  deriving DecidableEq, Repr

/-- The response of a resource operation: its diagnostics and the state it
wrote, `none` when it wrote none. -/
structure Response where
  Diagnostics : diag.Diagnostics
  State : Option resourceJobQueueData
  deriving DecidableEq, Repr

/-- Service name `names.Batch`. -/
def namesBatch : String := "Batch"

/-- The call `create.ProblemStandardMessage(names.Batch, action,
ResNameJobQueue, id, nil)`. -/
def problem (action : diag.ErrAction) (id : String) : diag.Summary :=
  .problem namesBatch action ResNameJobQueue id

/-- The request `resourceJobQueue.Create` builds from the plan; `tagsIn` is
what `getTagsIn(ctx)` returns. -/
def createInput (M : flex.Marshal) (tagsIn : List (String × String))
    (data : resourceJobQueueData) : CreateJobQueueInput :=
  let ceo := M.ExpandFrameworkStringValueList data.ComputeEnvironments
  { ComputeEnvironmentOrder := expandComputeEnvironmentOrder ceo
    JobQueueName := flex.StringFromFramework data.Name
    Priority := M.Int64FromFramework data.Priority
    State := flex.StringFromFramework data.State
    Tags := tagsIn
    SchedulingPolicyArn :=
      if data.SchedulingPolicyARN.IsNull = false then
        flex.StringFromFramework data.SchedulingPolicyARN
      else none }

/-- Method `resourceJobQueue.Create`. -/
def resourceJobQueue.Create (r : resourceJobQueue) (P : WaitPolicy) (M : flex.Marshal)
    (conn : Conn) (tagsIn : List (String × String)) (plan : Decoded) : Run (Response × Conn) :=
  let diags := plan.diags
  if diag.HasError diags then .ok ({ Diagnostics := diags, State := none }, conn)
  else
    let data := plan.data
    match conn.CreateJobQueueWithContext (createInput M tagsIn data) with
    | .panic => .panic
    | .exhausted => .exhausted
    | .ok (.err err, conn1) =>
      .ok ({ Diagnostics := diag.AddError diags (problem .Creating (ValueString data.Name))
               err.Error, State := none }, conn1)
    | .ok (.ok output, conn1) =>
      let state := { data with ID := flex.StringToFramework output.JobQueueArn }
      let createTimeout := r.CreateTimeout data.Timeouts
      match waitJobQueueCreated P conn1 (ValueString data.Name) createTimeout with
      | .panic => .panic
      | .exhausted => .exhausted
      | .ok ((_, some err), conn2) =>
        .ok ({ Diagnostics := diag.AddError diags
                 (problem .WaitingForCreation (ValueString data.Name)) err.Error,
               State := none }, conn2)
      | .ok ((none, none), _) => .panic
      | .ok ((some out, none), conn2) =>
        let refreshed := state.refreshFromOutput M out
        .ok ({ Diagnostics := diags ++ refreshed.2, State := some refreshed.1 }, conn2)

/-- The request `resourceJobQueue.Update` builds, with the flag `update`, or
the diagnostics of the early return when the scheduling policy cannot be
removed. -/
def updateInput (M : flex.Marshal) (plan state : resourceJobQueueData) :
    Except (diag.Summary × String) (Bool × UpdateJobQueueInput) :=
  let update := false
  let input : UpdateJobQueueInput :=
    { JobQueue := flex.StringFromFramework plan.Name, ComputeEnvironmentOrder := [],
      Priority := none, State := none, SchedulingPolicyArn := none }
  let (update, input) :=
    if (plan.ComputeEnvironments.Equal state.ComputeEnvironments) = false then
      let ceo := M.ExpandFrameworkStringValueList plan.ComputeEnvironments
      (true, { input with ComputeEnvironmentOrder := expandComputeEnvironmentOrder ceo })
    else (update, input)
  let (update, input) :=
    if (plan.Priority.Equal state.Priority) = false then
      (true, { input with Priority := M.Int64FromFramework plan.Priority })
    else (update, input)
  let (update, input) :=
    if (plan.State.Equal state.State) = false then
      (true, { input with State := flex.StringFromFramework plan.State })
    else (update, input)
  let (update, input) :=
    if state.SchedulingPolicyARN.IsNull = false then
      (true, { input with
        SchedulingPolicyArn := flex.StringFromFramework state.SchedulingPolicyARN })
    else (update, input)
  if (plan.SchedulingPolicyARN.Equal state.SchedulingPolicyARN) = false then
    if plan.SchedulingPolicyARN.IsNull = false ∨ plan.SchedulingPolicyARN.IsUnknown = false then
      .ok (true, { input with
        SchedulingPolicyArn := flex.StringFromFramework plan.SchedulingPolicyARN })
    else
      .error (.text "cannot remove the fair share scheduling policy",
        "cannot remove scheduling policy")
  else .ok (update, input)

/-- Method `resourceJobQueue.Update`; the state is decoded before the plan. -/
def resourceJobQueue.Update (r : resourceJobQueue) (P : WaitPolicy) (M : flex.Marshal)
    (conn : Conn) (state plan : Decoded) : Run (Response × Conn) :=
  let diags := state.diags ++ plan.diags
  if diag.HasError diags then .ok ({ Diagnostics := diags, State := none }, conn)
  else
    match updateInput M plan.data state.data with
    | .error (summary, detail) =>
      .ok ({ Diagnostics := diag.AddError diags summary detail, State := none }, conn)
    | .ok (false, _) => .ok ({ Diagnostics := diags, State := some plan.data }, conn)
    | .ok (true, input) =>
      match conn.UpdateJobQueueWithContext input with
      | .panic => .panic
      | .exhausted => .exhausted
      | .ok (some err, conn1) =>
        .ok ({ Diagnostics := diag.AddError diags
                 (problem .Updating (ValueString plan.data.Name)) err.Error,
               State := none }, conn1)
      | .ok (none, conn1) =>
        let updateTimeout := r.UpdateTimeout plan.data.Timeouts
        match waitJobQueueUpdated P conn1 (ValueString plan.data.ID) updateTimeout with
        | .panic => .panic
        | .exhausted => .exhausted
        | .ok ((_, some err), conn2) =>
          .ok ({ Diagnostics := diag.AddError diags
                   (problem .WaitingForCreation (ValueString plan.data.Name)) err.Error,
                 State := none }, conn2)
        | .ok ((none, none), _) => .panic
        | .ok ((some out, none), conn2) =>
          let refreshed := plan.data.refreshFromOutput M out
          .ok ({ Diagnostics := diags ++ refreshed.2, State := some refreshed.1 }, conn2)

/-- Method `resourceJobQueue.Delete`. The response state of a delete is never
written by the method. -/
def resourceJobQueue.Delete (r : resourceJobQueue) (P : WaitPolicy) (conn : Conn)
    (state : Decoded) : Run (Response × Conn) :=
  let diags := state.diags
  if diag.HasError diags then .ok ({ Diagnostics := diags, State := none }, conn)
  else
    let data := state.data
    let deleteTimeout := r.DeleteTimeout data.Timeouts
    match disableJobQueue P conn (ValueString data.ID) deleteTimeout with
    | .panic => .panic
    | .exhausted => .exhausted
    | .ok (some err, conn1) =>
      .ok ({ Diagnostics := diag.AddError diags (problem .Deleting (ValueString data.Name))
               err.Error, State := none }, conn1)
    | .ok (none, conn1) =>
      match conn1.DeleteJobQueueWithContext { JobQueue := flex.StringFromFramework data.ID } with
      | .panic => .panic
      | .exhausted => .exhausted
      | .ok (some err, conn2) =>
        .ok ({ Diagnostics := diag.AddError diags (problem .Deleting (ValueString data.Name))
                 err.Error, State := none }, conn2)
      | .ok (none, conn2) =>
        match waitJobQueueDeleted P conn2 (ValueString data.ID) deleteTimeout with
        | .panic => .panic
        | .exhausted => .exhausted
        | .ok ((_, some err), conn3) =>
          .ok ({ Diagnostics := diag.AddError diags
                   (problem .WaitingForDeletion (ValueString data.Name)) err.Error,
                 State := none }, conn3)
        | .ok ((_, none), conn3) => .ok ({ Diagnostics := diags, State := none }, conn3)

end batch

/-! ## Vocabulary of the statements -/

namespace retry

/-- The policy of a wait to which no error classifier is handed, as in the job
queue code, whose `StateChangeConf` values carry none and whose refresh function
returns every lookup error as it is: no probe error counts as transient, and no
target set is declared to stand for deletion. -/
def WaitPolicy.strict : WaitPolicy :=
  { classify := fun _ => .Fatal, representsDeleted := fun _ => false }

/-- The probe outcome makes the waiter poll again. -/
def goesOn (P : WaitPolicy) (spec : WaitSpec) (out : Option PollOutcome) : Bool :=
  match out with
  | none => false
  | some o =>
    match classifyOutcome P spec none o with
    | .again _ => true
    | .done _ => false

/-- Wall time the waiter spends on the given probes: each probe's latency and
the sleep that follows it. -/
def timeSpent (spec : WaitSpec) (latencies : List Nat) : Nat :=
  (latencies.map (fun l => l + spec.interval)).sum

/-- The probe that follows the given ones is still made: either it is the first
probe of the wait, or the time budget has not run out when it is due. -/
def dueInTime (spec : WaitSpec) (latencies : List Nat) : Prop :=
  latencies = [] ∨ spec.initialDelay + timeSpent spec latencies ≤ spec.timeout

instance (spec : WaitSpec) (latencies : List Nat) : Decidable (dueInTime spec latencies) := by
  unfold dueInTime
  infer_instance

end retry

namespace batch

open retry

/-- The probe finds exactly one job queue whose status is one of the given
ones. -/
def Probe.observesStatusIn (statuses : List String) (p : Probe) : Bool :=
  match p.reply with
  | .ok resp =>
    match resp.JobQueues with
    | [q] =>
      match q.Status with
      | some s => decide (s ∈ statuses)
      | none => false
    | _ => false
  | .err _ => false

/-- The lookup behind the probe, `findJobQueueByName`, fails with the error
`e`. -/
def Probe.lookupFails (sn : String) (p : Probe) (e : GoError) : Prop :=
  (findJobQueueByNameReply sn p.reply).2 = some e

instance (sn : String) (p : Probe) (e : GoError) : Decidable (p.lookupFails sn e) := by
  unfold Probe.lookupFails
  infer_instance

/-- The probe finds no job queue. -/
def Probe.absent (p : Probe) : Prop :=
  p.reply = .ok { JobQueues := [] }

instance (p : Probe) : Decidable p.absent := by
  unfold Probe.absent
  infer_instance

/-- The probe finds exactly the job queue `q`. -/
def Probe.finds (p : Probe) (q : JobQueueDetail) : Prop :=
  p.reply = .ok { JobQueues := [q] }

instance (p : Probe) (q : JobQueueDetail) : Decidable (p.finds q) := by
  unfold Probe.finds
  infer_instance

/-- The connection after `n` probes for `sn` were made, `rest` being the
probes left on its script. -/
def Conn.afterProbes (conn : Conn) (sn : String) (n : Nat) (rest : List Probe) : Conn :=
  { conn with
    describeJobQueues := rest
    calls := conn.calls ++ List.replicate n (.DescribeJobQueues (describeOpts sn)) }

/-- What the waiter sees of a probe made through `jobQueueRefreshStatusFunc`. -/
def probeOutcome (sn : String) (p : Probe) : Option PollOutcome :=
  ((jobQueueRefreshStatusFunc sn).onReply p.reply).map Refreshed.toPollOutcome

/-- Latencies of the scripted probes. -/
def latencies (ps : List Probe) : List Nat :=
  ps.map (fun p => p.latency)

/-- A job queue with the given status, for concrete runs. -/
def sampleQueue (status : String) : JobQueueDetail :=
  { JobQueueArn := some "arn:aws:batch:us-east-1:123456789012:job-queue/q"
    JobQueueName := some "q"
    ComputeEnvironmentOrder := []
    Priority := some 1
    SchedulingPolicyArn := none
    State := some JQStateEnabled
    Status := some status
    Tags := [] }

/-- A probe that finds the sample job queue in the given status after one
second. -/
def sampleProbe (status : String) : Probe :=
  { latency := time.Second, reply := .ok { JobQueues := [sampleQueue status] } }

/-- A probe that finds no job queue after one second. -/
def absentProbe : Probe :=
  { latency := time.Second, reply := .ok { JobQueues := [] } }

/-- A probe whose lookup fails with an API error. -/
def failedProbe (message : String) : Probe :=
  { latency := time.Second, reply := .err (.api message) }

/-- A connection with the given scripts and an empty trace. -/
def sampleConn (updates deletes : List (Option GoError)) (probes : List Probe) : Conn :=
  { createJobQueue := [], updateJobQueue := updates, deleteJobQueue := deletes,
    describeJobQueues := probes, calls := [] }

/-- Resource data of the sample job queue, without scheduling policy. -/
def sampleData : resourceJobQueueData :=
  { ARN := .known "arn:aws:batch:us-east-1:123456789012:job-queue/q"
    ComputeEnvironments := .known [.known "ce-1"]
    ID := .known "arn:aws:batch:us-east-1:123456789012:job-queue/q"
    Name := .known "q"
    Priority := .known 1
    SchedulingPolicyARN := .null
    State := .known JQStateEnabled
    Tags := .null
    TagsAll := .null
    Timeouts := { Create := none, Update := none, Delete := none } }

end batch

namespace batch

open retry basetypes

/-- The response of an operation that stops at the error `err`: one more error
diagnostic, whose detail is the message of `err`, and no state written. -/
def failed (diags : diag.Diagnostics) (action : diag.ErrAction) (name : StringValue)
    (err : GoError) : Response :=
  { Diagnostics := diags ++
      [{ severity := .Error, summary := problem action (ValueString name), detail := err.Error }]
    State := none }

/-- The order of the remote calls of a `Delete` that took the connection from
`conn` to `conn'`, every call written out. Either the state did not decode and
no call was made. Or the state decoded, the disable step failed, and the calls
are the update that sets the state `DISABLED` and `n` probes, no delete call.
Or the state decoded, that update was answered without error, the wait after it
returned without error after `n > 0` probes, the last of which found the queue
with status `VALID`; then came the delete call and `m` probes, `m > 0` only
when the delete call was answered without error. -/
def DeleteOrder (r : resourceJobQueue) (P : WaitPolicy) (conn conn' : Conn) (state : Decoded) :
    Prop :=
  (diag.HasError state.diags = true ∧ conn'.calls = conn.calls) ∨
  (diag.HasError state.diags = false ∧
    ∃ e n,
      disableJobQueue P conn (ValueString state.data.ID)
        (r.DeleteTimeout state.data.Timeouts) = .ok (some e, conn') ∧
      conn'.calls = conn.calls ++
        .UpdateJobQueue
          { JobQueue := some (ValueString state.data.ID), ComputeEnvironmentOrder := [],
            Priority := none, State := some "DISABLED", SchedulingPolicyArn := none } ::
          List.replicate n
            (.DescribeJobQueues { JobQueues := [some (ValueString state.data.ID)] })) ∨
  (diag.HasError state.diags = false ∧
    ∃ us raw conn1 n m p q,
      conn.updateJobQueue = none :: us ∧
      WaitForStateContext P (disableJobQueueConf (r.DeleteTimeout state.data.Timeouts))
          (jobQueueRefreshStatusFunc (ValueString state.data.ID))
          { conn with
            updateJobQueue := us
            calls := conn.calls ++
              [.UpdateJobQueue
                { JobQueue := some (ValueString state.data.ID), ComputeEnvironmentOrder := [],
                  Priority := none, State := some "DISABLED", SchedulingPolicyArn := none }] } =
        .ok ((raw, none), conn1) ∧
      0 < n ∧
      conn.describeJobQueues[n - 1]? = some p ∧ p.finds q ∧ q.Status = some "VALID" ∧
      conn1.calls = conn.calls ++
        .UpdateJobQueue
          { JobQueue := some (ValueString state.data.ID), ComputeEnvironmentOrder := [],
            Priority := none, State := some "DISABLED", SchedulingPolicyArn := none } ::
          List.replicate n
            (.DescribeJobQueues { JobQueues := [some (ValueString state.data.ID)] }) ∧
      conn'.calls = conn1.calls ++
        .DeleteJobQueue { JobQueue := flex.StringFromFramework state.data.ID } ::
          List.replicate m
            (.DescribeJobQueues { JobQueues := [some (ValueString state.data.ID)] }) ∧
      (0 < m → ∃ ds, conn1.deleteJobQueue = none :: ds))

/-- The script of a delete that goes through: the disabling update and the
delete call succeed, the queue is seen `UPDATING`, `VALID`, `DELETING`, gone. -/
def deleteScript : Conn :=
  sampleConn [none] [none]
    [sampleProbe JQStatusUpdating, sampleProbe JQStatusValid, sampleProbe JQStatusDeleting,
      absentProbe]

/-- The connection after the delete over `deleteScript`: the update that sets
the state `DISABLED`, two probes, the delete call, two probes. -/
def deleteScriptDone : Conn :=
  { createJobQueue := [], updateJobQueue := [], deleteJobQueue := [], describeJobQueues := []
    calls :=
      [.UpdateJobQueue
        { JobQueue := some "arn:aws:batch:us-east-1:123456789012:job-queue/q",
          ComputeEnvironmentOrder := [], Priority := none, State := some "DISABLED",
          SchedulingPolicyArn := none },
       .DescribeJobQueues
        { JobQueues := [some "arn:aws:batch:us-east-1:123456789012:job-queue/q"] },
       .DescribeJobQueues
        { JobQueues := [some "arn:aws:batch:us-east-1:123456789012:job-queue/q"] },
       .DeleteJobQueue { JobQueue := some "arn:aws:batch:us-east-1:123456789012:job-queue/q" },
       .DescribeJobQueues
        { JobQueues := [some "arn:aws:batch:us-east-1:123456789012:job-queue/q"] },
       .DescribeJobQueues
        { JobQueues := [some "arn:aws:batch:us-east-1:123456789012:job-queue/q"] }] }

end batch

namespace batch

open retry basetypes

/-- No mutable field differs between plan and prior state: the compute
environments, the priority, the state and the scheduling policy ARN are
equal. -/
def unchanged (plan state : resourceJobQueueData) : Bool :=
  plan.ComputeEnvironments.Equal state.ComputeEnvironments &&
    plan.Priority.Equal state.Priority &&
    plan.State.Equal state.State &&
    plan.SchedulingPolicyARN.Equal state.SchedulingPolicyARN

/-- The request `Update` builds when nothing but the scheduling policy of the
prior state is to be sent. -/
def policyOnlyInput (plan state : resourceJobQueueData) : UpdateJobQueueInput :=
  { JobQueue := flex.StringFromFramework plan.Name, ComputeEnvironmentOrder := [],
    Priority := none, State := none,
    SchedulingPolicyArn := flex.StringFromFramework state.SchedulingPolicyARN }

/-- The remote calls of a run that returned. -/
def callsOf (run : Run (Response × Conn)) : Option (List Call) :=
  match run with
  | .ok (_, conn) => some conn.calls
  | _ => none

/-- Resource data of the sample job queue with a scheduling policy. -/
def policyData : resourceJobQueueData :=
  { sampleData with
    SchedulingPolicyARN := .known "arn:aws:batch:us-east-1:123456789012:scheduling-policy/sp" }

end batch

namespace batch

open retry basetypes

/-- The ARN of the sample job queue. -/
def sampleArn : String := "arn:aws:batch:us-east-1:123456789012:job-queue/q"

/-- The script of a create that goes through: `CreateJobQueue` answers with
the ARN of the new queue, which is then seen `CREATING` and `VALID`. -/
def createScript : Conn :=
  { createJobQueue := [.ok { JobQueueArn := some sampleArn, JobQueueName := some "q" }]
    updateJobQueue := []
    deleteJobQueue := []
    describeJobQueues := [sampleProbe JQStatusCreating, sampleProbe JQStatusValid]
    calls := [] }

/-- The plan of the sample job queue before it exists: the ARN and the ID are
not known yet. -/
def samplePlan : resourceJobQueueData :=
  { sampleData with ARN := .unknown, ID := .unknown }

/-- The connection after the create over `createScript`. -/
def createScriptDone : Conn :=
  { createJobQueue := [], updateJobQueue := [], deleteJobQueue := [], describeJobQueues := []
    calls :=
      [.CreateJobQueue (createInput flex.Marshal.plain [] samplePlan),
       .DescribeJobQueues (describeOpts "q"),
       .DescribeJobQueues (describeOpts "q")] }

/-- The response of the create over `createScript`. -/
def createScriptResponse : Response :=
  { Diagnostics := []
    State := some
      ({ samplePlan with ID := .known sampleArn }.refreshFromOutput flex.Marshal.plain
        (sampleQueue JQStatusValid)).1 }

end batch

namespace batch

open retry basetypes

/-- The sample job queue planned with an empty list of compute environments. -/
def emptiedPlan : resourceJobQueueData :=
  { sampleData with ComputeEnvironments := .known [] }

/-- The sample job queue with a scheduling policy, planned with priority 2. -/
def raisedPlan : resourceJobQueueData :=
  { policyData with Priority := .known 2 }

end batch

/-! ## The name validator of the job queue schema -/

namespace regexp

/-- One element of a regular expression that is a sequence of repeated
character classes: the ranges of the class (a single character is the range
from itself to itself) and the bounds of the repetition. -/
structure Repeat where
  ranges : List (Char × Char)
  min : Nat
  max : Nat
  deriving DecidableEq, Repr

/-- The character lies in one of the ranges of a class. -/
def inRanges (ranges : List (Char × Char)) (c : Char) : Bool :=
  ranges.any (fun r => decide (r.1 ≤ c) && decide (c ≤ r.2))

/-- Match between `min` and `max` characters of the class at the head of the
input, then the rest of the expression, `k`, on what remains; every number of
repetitions within the bounds is tried. -/
def matchRepeat (ranges : List (Char × Char)) (k : List Char → Bool) :
    Nat → Nat → List Char → Bool
  | min, 0, cs => decide (min = 0) && k cs
  | min, _ + 1, [] => decide (min = 0) && k []
  | min, max + 1, c :: cs =>
    (decide (min = 0) && k (c :: cs)) ||
      (inRanges ranges c && matchRepeat ranges k (min - 1) max cs)

/-- Match a sequence of repeated classes against the whole input: the
expression is anchored by `^` at its start and by `$`, the end of the text, at
its end. -/
def matchAll : List Repeat → List Char → Bool
  | [], cs => cs.isEmpty
  | p :: ps, cs => matchRepeat p.ranges (matchAll ps) p.min p.max cs

/-- Method `MatchString` for an anchored sequence of repeated classes. -/
def MatchString (re : List Repeat) (s : String) : Bool :=
  matchAll re s.toList

end regexp

namespace batch

/-- The pattern of the `name` validator in `resourceJobQueue.Schema`,
`^[0-9A-Za-z]{1}[0-9A-Za-z_-]{0,127}$`. -/
def nameRegexp : List regexp.Repeat :=
  [{ ranges := [('0', '9'), ('A', 'Z'), ('a', 'z')], min := 1, max := 1 },
   { ranges := [('0', '9'), ('A', 'Z'), ('a', 'z'), ('_', '_'), ('-', '-')], min := 0,
     max := 127 }]

/-- The validator `stringvalidator.RegexMatches` of the `name` attribute, on a
known string: the value is accepted when the pattern matches it. -/
def nameValidator (s : String) : Bool :=
  regexp.MatchString nameRegexp s

/-- The names the validator's message describes: up to 128 characters and at
least one, all of them ASCII letters, digits, underscores or dashes, the first
an ASCII letter or digit. -/
def nameAsDescribed (s : String) : Prop :=
  1 ≤ s.length ∧ s.length ≤ 128 ∧
    (∃ c, s.toList.head? = some c ∧ c.isAlphanum = true) ∧
    ∀ c ∈ s.toList, (c.isAlphanum || decide (c = '_') || decide (c = '-')) = true

end batch

/-! ## More of package `flex` (`internal/framework/flex/string.go`) -/

namespace flex

open basetypes

/-- Function `StringSliceFromFramework`: no slice (nil, the empty list) for a
null or unknown value, else the one pointer `StringFromFramework` gives. -/
def StringSliceFromFramework (v : StringValue) : List (Option String) :=
  if v.IsNull || v.IsUnknown then [] else [StringFromFramework v]

/-- Function `StringValueToFramework`: an empty string gives a null String,
any other string the String with that value. -/
def StringValueToFramework (v : String) : StringValue :=
  if v = "" then .null else .known v

/-- Function `StringValueToFrameworkLegacy`: `types.StringValue(string(v))`. -/
def StringValueToFrameworkLegacy (v : String) : StringValue :=
  .known v

end flex

/-! ## The Timestream Write data sources
(`internal/service/timestreamwrite/table_data_source.go`,
`database_data_source.go`) -/

namespace basetypes

/-- Method `String` of `types.String`: the human-readable form of the value,
which for a known value is the quoted string, `fmt.Sprintf("%q", value)`. The
function `quote` is `strconv.Quote`, which is taken as it is. -/
def Value.String (quote : String → String) (v : StringValue) : String :=
  match v with
  | .null => "<null>"
  | .unknown => "<unknown>"
  | .known s => quote s

end basetypes

namespace tfsdk

/-- Method `Config.Get` of the plugin framework, as far as the data sources
here depend on it: the configuration object is decoded into the target struct
only when every attribute and block of the schema has a field of the struct
with its name as `tfsdk` tag, and every such field an attribute or block;
otherwise the target keeps its zero value and an error diagnostic is returned.
(A block whose set type the struct field cannot hold makes the decoding fail as
well; the check of the names is all that is needed below.) -/
def ConfigGet {α : Type} (schemaNames fieldTags : List String) (decoded zero : α) :
    α × diag.Diagnostics :=
  if (∀ n ∈ schemaNames, n ∈ fieldTags) ∧ (∀ n ∈ fieldTags, n ∈ schemaNames) then
    (decoded, [])
  else
    (zero,
      [{ severity := .Error
         summary := .text "Value Conversion Error"
         detail := "mismatch between struct and object" }])

end tfsdk

namespace timestreamwrite

open basetypes

/-- Constant `DSNameTable`. -/
def DSNameTable : String := "Table Data Source"

/-- Constant `DSNameDatabase`. -/
def DSNameDatabase : String := "Database Data Source"

/-- Struct `retentionProperties`. -/
structure retentionProperties where
  MagneticStoreRetentionPeriodInDays : Int64Value
  MemoryStoreRetentionPeriodInHours : Int64Value
  deriving DecidableEq, Repr

/-- Struct `s3Configuration`. -/
structure s3Configuration where
  BucketName : StringValue
  EncryptionOption : StringValue
  KmsKeyId : StringValue
  ObjectKeyPrefix : StringValue
  deriving DecidableEq, Repr

/-- Struct `magneticStoreRejectedDataLocation`. -/
structure magneticStoreRejectedDataLocation where
  S3Configuration : s3Configuration
  deriving DecidableEq, Repr

/-- Struct `magneticStoreWriteProperties`. -/
structure magneticStoreWriteProperties where
  EnableMagneticStoreWrites : Value Bool
  MagneticStoreRejectedDataLocation : magneticStoreRejectedDataLocation
  deriving DecidableEq, Repr

/-- Struct `tableSchema`; the list holds the composite partition keys as
(enforcement, name, type). -/
structure tableSchema where
  CompositePartitionKey : Value (List (StringValue × StringValue × StringValue))
  deriving DecidableEq, Repr

/-- Struct `dataSourceTableData`. -/
structure dataSourceTableData where
  ARN : StringValue
  CreationTime : Int64Value
  DatabaseName : StringValue
  LastUpdatedTime : Int64Value
  MagneticStoreWriteProperties : magneticStoreWriteProperties
  RetentionProperties : retentionProperties
  TableSchema : tableSchema
  TableName : StringValue
  TableStatus : StringValue
  deriving DecidableEq, Repr

/-- The `tfsdk` tags of the fields of `dataSourceTableData`. -/
def dataSourceTableDataTags : List String :=
  ["arn", "creation_time", "database_name", "last_updated_time",
   "magnetic_store_write_properties", "retention_properties", "schema", "table_name",
   "table_status"]

/-- The names of the attributes and of the blocks that `dataSourceTable.Schema`
declares. -/
def dataSourceTableSchemaNames : List String :=
  ["arn", "creation_time", "database_name", "last_updated_time", "table_name",
   "table_status", "tags", "magnetic_store_write_properties", "retention_properties",
   "schema"]

/-- The zero value of `dataSourceTableData`: every value null. -/
def dataSourceTableDataZero : dataSourceTableData :=
  { ARN := .null, CreationTime := .null, DatabaseName := .null, LastUpdatedTime := .null
    MagneticStoreWriteProperties :=
      { EnableMagneticStoreWrites := .null
        MagneticStoreRejectedDataLocation :=
          { S3Configuration :=
              { BucketName := .null, EncryptionOption := .null, KmsKeyId := .null,
                ObjectKeyPrefix := .null } } }
    RetentionProperties :=
      { MagneticStoreRetentionPeriodInDays := .null
        MemoryStoreRetentionPeriodInHours := .null }
    TableSchema := { CompositePartitionKey := .null }
    TableName := .null, TableStatus := .null }

/-- The configuration of the table data source: its two required arguments;
everything else is computed and null in the configuration. -/
structure TableConfig where
  database_name : StringValue
  table_name : StringValue
  deriving DecidableEq, Repr

/-- The struct a configuration would decode into. -/
def TableConfig.decoded (config : TableConfig) : dataSourceTableData :=
  { dataSourceTableDataZero with
    DatabaseName := config.database_name, TableName := config.table_name }

/-- SDK struct `types.Table`, as far as `Read` looks at it: times are Unix
seconds behind their pointers; the two property blocks are kept as the
flattening functions return them, a slice whose elements are of the expected
struct type (`some`) or of another type (`none`). -/
structure Table where
  Arn : Option String
  TableName : Option String
  DatabaseName : Option String
  CreationTime : Option Int
  LastUpdatedTime : Option Int
  TableStatus : String
  FlattenedMagneticStoreWriteProperties : List (Option magneticStoreWriteProperties)
  FlattenedRetentionProperties : List (Option retentionProperties)
  deriving DecidableEq, Repr

/-- The response of the table data source; `lookups` are the pairs of names the
finder was called with. -/
structure TableResponse where
  Diagnostics : diag.Diagnostics
  State : Option dataSourceTableData
  lookups : List (String × String)
  deriving DecidableEq, Repr

/-- The problem summary of a failed read, by the arguments of
`create.ProblemStandardMessage(names.TimestreamWrite, create.ErrActionReading,
name, id, err)`; the error, whose message is the detail of the diagnostic as
well, is not kept in the summary. -/
def readProblem (name id : String) (_err : GoError) : diag.Summary :=
  .problem "TimestreamWrite" .Reading name id

/-- Method `dataSourceTable.Read`. The finder `findTableByTwoPartKey` with its
connection is the function `find` of the two names it is called with, and
`quote` is `strconv.Quote`. -/
def dataSourceTable.Read (quote : String → String) (find : String → String → Reply Table)
    (config : TableConfig) : Run TableResponse :=
  let got := tfsdk.ConfigGet dataSourceTableSchemaNames dataSourceTableDataTags config.decoded
    dataSourceTableDataZero
  let data := got.1
  let diags := got.2
  if diag.HasError diags then .ok { Diagnostics := diags, State := none, lookups := [] }
  else
    let tableName := data.TableName
    let databaseName := data.DatabaseName
    let key := (databaseName.String quote, tableName.String quote)
    match find key.1 key.2 with
    | .err err =>
      .ok { Diagnostics := diag.AddError diags
              (readProblem DSNameTable (databaseName.String quote) err) err.Error,
            State := none, lookups := [key] }
    | .ok out =>
      match out.CreationTime, out.LastUpdatedTime with
      | some creationTime, some lastUpdatedTime =>
        let tableStatus := out.TableStatus
        let data := { data with
          ARN := flex.StringToFramework out.Arn
          TableName := flex.StringToFramework out.TableName
          DatabaseName := flex.StringToFramework out.DatabaseName
          LastUpdatedTime := .known lastUpdatedTime
          CreationTime := .known creationTime
          TableStatus := flex.StringToFramework (some tableStatus) }
        match out.FlattenedMagneticStoreWriteProperties with
        | some MagneticStoreWriteProperties :: _ =>
          let data := { data with MagneticStoreWriteProperties := MagneticStoreWriteProperties }
          match out.FlattenedRetentionProperties with
          | some RetentionProperties :: _ =>
            let data := { data with RetentionProperties := RetentionProperties }
            .ok { Diagnostics := diags, State := some data, lookups := [key] }
          | _ => .panic
        | _ => .panic
      | _, _ => .panic

/-- Struct `dataSourceDatabaseData`. -/
structure dataSourceDatabaseData where
  ARN : StringValue
  CreationTime : Int64Value
  DatabaseName : StringValue
  KmsKeyId : StringValue
  LastUpdatedTime : Int64Value
  TableCount : Int64Value
  deriving DecidableEq, Repr

/-- The `tfsdk` tags of the fields of `dataSourceDatabaseData`. -/
def dataSourceDatabaseDataTags : List String :=
  ["arn", "creation_time", "database_name", "kms_key_id", "last_updated_time", "table_count"]

/-- The names of the attributes that `dataSourceDatabase.Schema` declares. -/
def dataSourceDatabaseSchemaNames : List String :=
  ["arn", "creation_time", "database_name", "kms_key_id", "last_updated_time",
   "table_count", "tags"]

/-- The zero value of `dataSourceDatabaseData`: every value null. -/
def dataSourceDatabaseDataZero : dataSourceDatabaseData :=
  { ARN := .null, CreationTime := .null, DatabaseName := .null, KmsKeyId := .null,
    LastUpdatedTime := .null, TableCount := .null }

/-- The configuration of the database data source: its one required argument. -/
structure DatabaseConfig where
  database_name : StringValue
  deriving DecidableEq, Repr

/-- The struct a configuration would decode into. -/
def DatabaseConfig.decoded (config : DatabaseConfig) : dataSourceDatabaseData :=
  { dataSourceDatabaseDataZero with DatabaseName := config.database_name }

/-- SDK struct `types.Database`, as far as `Read` looks at it. -/
structure Database where
  Arn : Option String
  CreationTime : Option Int
  DatabaseName : Option String
  KmsKeyId : Option String
  LastUpdatedTime : Option Int
  TableCount : Int
  deriving DecidableEq, Repr

/-- The response of the database data source; `lookups` are the names the
finder was called with. -/
structure DatabaseResponse where
  Diagnostics : diag.Diagnostics
  State : Option dataSourceDatabaseData
  lookups : List String
  deriving DecidableEq, Repr

/-- Method `dataSourceDatabase.Read`. The finder `findDatabaseByName` with its
connection is the function `find` of the name it is called with, and `quote`
is `strconv.Quote`. -/
def dataSourceDatabase.Read (quote : String → String) (find : String → Reply Database)
    (config : DatabaseConfig) : Run DatabaseResponse :=
  let got := tfsdk.ConfigGet dataSourceDatabaseSchemaNames dataSourceDatabaseDataTags
    config.decoded dataSourceDatabaseDataZero
  let data := got.1
  let diags := got.2
  if diag.HasError diags then .ok { Diagnostics := diags, State := none, lookups := [] }
  else
    let key := ValueString data.DatabaseName
    match find key with
    | .err err =>
      .ok { Diagnostics := diag.AddError diags
              (readProblem DSNameDatabase (data.DatabaseName.String quote) err) err.Error,
            State := none, lookups := [key] }
    | .ok out =>
      match out.CreationTime, out.LastUpdatedTime with
      | some creationTime, some lastUpdatedTime =>
        .ok { Diagnostics := diags
              State := some { data with
                ARN := flex.StringToFramework out.Arn
                CreationTime := .known creationTime
                DatabaseName := flex.StringToFramework out.DatabaseName
                KmsKeyId := flex.StringToFramework out.KmsKeyId
                LastUpdatedTime := .known lastUpdatedTime
                TableCount := .known out.TableCount }
              lookups := [key] }
      | _, _ => .panic

/-- The table `t1` of the database `db1`. -/
def sampleTable : Table :=
  { Arn := some "arn:aws:timestream:us-east-1:123456789012:database/db1/table/t1"
    TableName := some "t1"
    DatabaseName := some "db1"
    CreationTime := some 1700000000
    LastUpdatedTime := some 1700000000
    TableStatus := "ACTIVE"
    FlattenedMagneticStoreWriteProperties :=
      [some { EnableMagneticStoreWrites := .known false
              MagneticStoreRejectedDataLocation :=
                { S3Configuration :=
                    { BucketName := .null, EncryptionOption := .null, KmsKeyId := .null,
                      ObjectKeyPrefix := .null } } }]
    FlattenedRetentionProperties :=
      [some { MagneticStoreRetentionPeriodInDays := .known 73000
              MemoryStoreRetentionPeriodInHours := .known 6 }] }

/-- A remote service that holds the table `t1` in the database `db1` and
nothing else: any other pair of names is not found. -/
def sampleFind (databaseName tableName : String) : Reply Table :=
  if databaseName = "db1" ∧ tableName = "t1" then .ok sampleTable
  else .err (.api "ResourceNotFoundException")

/-- The configuration `database_name = "db1"`, `table_name = "t1"` of the
table data source. -/
def sampleTableConfig : TableConfig :=
  { database_name := .known "db1", table_name := .known "t1" }

end timestreamwrite

/-! ## The convergence waiter: general lemmas -/

namespace retry

theorem classifyOutcome_again_any (P : WaitPolicy) (spec : WaitSpec) (out : PollOutcome)
    (h : goesOn P spec (some out) = true) (last : Option ObservedState) :
    ∃ l, classifyOutcome P spec last out = .again l := by
  cases out with
  | ProbeError e =>
    simp only [goesOn, classifyOutcome] at h ⊢
    cases hc : P.classify e <;> simp [hc] at h ⊢
  | Observed o =>
    simp only [goesOn, classifyOutcome] at h ⊢
    split_ifs at h ⊢
    all_goals simp_all

theorem timeSpent_cons (spec : WaitSpec) (l : Nat) (ls : List Nat) :
    timeSpent spec (l :: ls) = l + spec.interval + timeSpent spec ls := by
  simp [timeSpent]

/-- Probes that make the waiter go on, followed by a probe that settles the
wait with `r`, settle it with `r` at that probe when the budget allows. -/
theorem waitLoop_settles (P : WaitPolicy) (spec : WaitSpec) (t : Timed) (rest : List Timed)
    (out : PollOutcome) (r : ReconciliationResult) (ht : t.outcome = some out)
    (hdone : ∀ last, classifyOutcome P spec last out = .done r) :
    ∀ (pre : List Timed) (first : Bool) (elapsed : Nat) (last : Option ObservedState),
      (∀ p ∈ pre, goesOn P spec p.outcome = true) →
      (first = true ∨ elapsed ≤ spec.timeout) →
      (pre = [] ∨ elapsed + timeSpent spec (pre.map (fun p => p.latency)) ≤ spec.timeout) →
      waitLoop P spec (pre ++ t :: rest) first elapsed last = .ok (r, pre.length + 1) := by
  intro pre
  induction pre with
  | nil =>
    intro first elapsed last _ hfirst _
    have hcheck : ¬ (first = false ∧ spec.timeout < elapsed) := by
      rintro ⟨hf, hlt⟩
      rcases hfirst with h | h
      · simp [hf] at h
      · omega
    simp [waitLoop, hcheck, ht, hdone]
  | cons p pre ih =>
    intro first elapsed last hpre hfirst htime
    have hcheck : ¬ (first = false ∧ spec.timeout < elapsed) := by
      rintro ⟨hf, hlt⟩
      rcases hfirst with h | h
      · simp [hf] at h
      · omega
    have hp : goesOn P spec p.outcome = true := hpre p (List.mem_cons_self _ _)
    have htime' : elapsed + (p.latency + spec.interval +
        timeSpent spec (pre.map (fun p => p.latency))) ≤ spec.timeout := by
      rcases htime with h | h
      · simp at h
      · simpa [timeSpent_cons] using h
    cases hout : p.outcome with
    | none => simp [goesOn, hout] at hp
    | some o =>
      rw [hout] at hp
      obtain ⟨l, hl⟩ := classifyOutcome_again_any P spec o hp last
      have hrec := ih false (elapsed + p.latency + spec.interval) l
        (fun q hq => hpre q (List.mem_cons_of_mem _ hq))
        (Or.inr (by omega)) (Or.inr (by omega))
      simp [waitLoop, hcheck, hout, hl, hrec]

theorem Wait_settles (P : WaitPolicy) (spec : WaitSpec) (pre : List Timed) (t : Timed)
    (rest : List Timed) (out : PollOutcome) (r : ReconciliationResult)
    (ht : t.outcome = some out) (hdone : ∀ last, classifyOutcome P spec last out = .done r)
    (hpre : ∀ p ∈ pre, goesOn P spec p.outcome = true)
    (htime : dueInTime spec (pre.map (fun p => p.latency))) :
    Wait P spec (pre ++ t :: rest) = .ok (r, pre.length + 1) := by
  unfold Wait
  apply waitLoop_settles P spec t rest out r ht hdone pre true _ _ hpre (Or.inl rfl)
  rcases htime with h | h
  · left
    simpa using h
  · exact Or.inr h

end retry

/-! ## The job queue waiters: general lemmas -/

namespace batch

open retry

theorem probes_eq_map (sn : String) (script : List Probe) :
    (jobQueueRefreshStatusFunc sn).probes script =
      script.map (fun p => { latency := p.latency, outcome := probeOutcome sn p }) := rfl

theorem probeOutcome_finds (sn : String) (p : Probe) (q : JobQueueDetail) (s : String)
    (hp : p.finds q) (hs : q.Status = some s) :
    probeOutcome sn p =
      some (.Observed { object := some (.jobQueue q), status := s, present := true }) := by
  unfold Probe.finds at hp
  simp [probeOutcome, jobQueueRefreshStatusFunc, findJobQueueByNameReply, hp, hs,
    Refreshed.toPollOutcome]

theorem probeOutcome_absent (sn : String) (p : Probe) (hp : p.absent) :
    probeOutcome sn p =
      some (.Observed { object := some (.int 42), status := JQStatusDeleted, present := true }) := by
  unfold Probe.absent at hp
  simp [probeOutcome, jobQueueRefreshStatusFunc, findJobQueueByNameReply, hp,
    Refreshed.toPollOutcome]

theorem observesStatusIn_finds (statuses : List String) (p : Probe)
    (h : p.observesStatusIn statuses = true) :
    ∃ q s, p.finds q ∧ q.Status = some s ∧ s ∈ statuses := by
  unfold Probe.observesStatusIn at h
  rcases p with ⟨lat, reply⟩
  cases reply with
  | err e => simp at h
  | ok resp =>
    rcases resp with ⟨qs⟩
    match qs, h with
    | [q], h =>
      cases hs : q.Status with
      | none => simp [hs] at h
      | some s =>
        simp [hs] at h
        exact ⟨q, s, rfl, hs, h⟩

/-- A probe that observes a pending status makes the waiter go on, when that
status is not a target as well. -/
theorem goesOn_pending (P : WaitPolicy) (conf : StateChangeConf) (sn : String) (p : Probe)
    (hdisj : ∀ s ∈ conf.Pending, s ∉ conf.Target)
    (h : p.observesStatusIn conf.Pending = true) :
    goesOn P conf.toWaitSpec (probeOutcome sn p) = true := by
  obtain ⟨q, s, hq, hs, hmem⟩ := observesStatusIn_finds _ p h
  rw [probeOutcome_finds sn p q s hq hs]
  simp [goesOn, classifyOutcome, StateChangeConf.toWaitSpec, hmem, hdisj s hmem]

/-- The general form of the results on the job queue waits: probes that make
the waiter go on, then a probe that settles the wait. -/
theorem WaitForStateContext_settles (P : WaitPolicy) (conf : StateChangeConf) (sn : String)
    (conn : Conn) (pre : List Probe) (t : Probe) (rest : List Probe) (out : PollOutcome)
    (r : ReconciliationResult)
    (hscript : conn.describeJobQueues = pre ++ t :: rest)
    (hpre : ∀ p ∈ pre, goesOn P conf.toWaitSpec (probeOutcome sn p) = true)
    (ht : probeOutcome sn t = some out)
    (hdone : ∀ last, classifyOutcome P conf.toWaitSpec last out = .done r)
    (htime : dueInTime conf.toWaitSpec (latencies pre)) :
    WaitForStateContext P conf (jobQueueRefreshStatusFunc sn) conn =
      .ok (r.toGo, conn.afterProbes sn (pre.length + 1) rest) := by
  have hw := Wait_settles P conf.toWaitSpec
    (pre.map (fun p => { latency := p.latency, outcome := probeOutcome sn p }))
    { latency := t.latency, outcome := probeOutcome sn t }
    (rest.map (fun p => { latency := p.latency, outcome := probeOutcome sn p }))
    out r ht hdone
    (by
      intro p hp
      obtain ⟨p0, hp0, rfl⟩ := List.mem_map.mp hp
      exact hpre p0 hp0)
    (by simpa [latencies, List.map_map, Function.comp] using htime)
  unfold WaitForStateContext
  rw [probes_eq_map, hscript, List.map_append, List.map_cons, hw]
  simp [Conn.afterProbes, jobQueueRefreshStatusFunc]

end batch

namespace batch

open retry

theorem observesStatusIn_mono (xs ys : List String) (hsub : ∀ s ∈ xs, s ∈ ys) (p : Probe)
    (h : p.observesStatusIn xs = true) : p.observesStatusIn ys = true := by
  obtain ⟨q, s, hq, hs, hmem⟩ := observesStatusIn_finds xs p h
  unfold Probe.finds at hq
  simp [Probe.observesStatusIn, hq, hs, hsub s hmem]

/-- The wait succeeds with the observed job queue at the first probe that finds
it in a target status. -/
theorem wait_target (P : WaitPolicy) (conf : StateChangeConf) (sn : String) (conn : Conn)
    (pre : List Probe) (t : Probe) (rest : List Probe) (q : JobQueueDetail) (s : String)
    (hscript : conn.describeJobQueues = pre ++ t :: rest)
    (hpre : ∀ p ∈ pre, goesOn P conf.toWaitSpec (probeOutcome sn p) = true)
    (ht : t.finds q) (hq : q.Status = some s) (hs : s ∈ conf.Target)
    (htime : dueInTime conf.toWaitSpec (latencies pre)) :
    WaitForStateContext P conf (jobQueueRefreshStatusFunc sn) conn =
      .ok ((some (.jobQueue q), none), conn.afterProbes sn (pre.length + 1) rest) := by
  rw [WaitForStateContext_settles P conf sn conn pre t rest _ _ hscript hpre
    (probeOutcome_finds sn t q s ht hq)
    (by intro last; simp [classifyOutcome, StateChangeConf.toWaitSpec, hs]; rfl) htime]
  rfl

/-- The wait fails at the first probe that finds the job queue in a status that
is neither pending nor target. -/
theorem wait_unexpected (P : WaitPolicy) (conf : StateChangeConf) (sn : String) (conn : Conn)
    (pre : List Probe) (t : Probe) (rest : List Probe) (q : JobQueueDetail) (s : String)
    (hscript : conn.describeJobQueues = pre ++ t :: rest)
    (hpre : ∀ p ∈ pre, goesOn P conf.toWaitSpec (probeOutcome sn p) = true)
    (ht : t.finds q) (hq : q.Status = some s) (hp : s ∉ conf.Pending) (hs : s ∉ conf.Target)
    (htime : dueInTime conf.toWaitSpec (latencies pre)) :
    WaitForStateContext P conf (jobQueueRefreshStatusFunc sn) conn =
      .ok ((some (.jobQueue q), some (.unexpectedStatus s conf.Target)),
        conn.afterProbes sn (pre.length + 1) rest) := by
  rw [WaitForStateContext_settles P conf sn conn pre t rest _ _ hscript hpre
    (probeOutcome_finds sn t q s ht hq)
    (by intro last; simp [classifyOutcome, StateChangeConf.toWaitSpec, hs, hp]; rfl) htime]
  rfl

/-- The wait succeeds at the first probe that finds no job queue, when
`DELETED` is a target status. -/
theorem wait_absent_target (P : WaitPolicy) (conf : StateChangeConf) (sn : String)
    (conn : Conn) (pre : List Probe) (t : Probe) (rest : List Probe)
    (hscript : conn.describeJobQueues = pre ++ t :: rest)
    (hpre : ∀ p ∈ pre, goesOn P conf.toWaitSpec (probeOutcome sn p) = true)
    (ht : t.absent) (hs : JQStatusDeleted ∈ conf.Target)
    (htime : dueInTime conf.toWaitSpec (latencies pre)) :
    WaitForStateContext P conf (jobQueueRefreshStatusFunc sn) conn =
      .ok ((some (.int 42), none), conn.afterProbes sn (pre.length + 1) rest) := by
  rw [WaitForStateContext_settles P conf sn conn pre t rest _ _ hscript hpre
    (probeOutcome_absent sn t ht)
    (by intro last; simp [classifyOutcome, StateChangeConf.toWaitSpec, hs]; rfl) htime]
  rfl

/-- The wait fails at the first probe that finds no job queue, when `DELETED`
is neither a pending nor a target status. -/
theorem wait_absent_unexpected (P : WaitPolicy) (conf : StateChangeConf) (sn : String)
    (conn : Conn) (pre : List Probe) (t : Probe) (rest : List Probe)
    (hscript : conn.describeJobQueues = pre ++ t :: rest)
    (hpre : ∀ p ∈ pre, goesOn P conf.toWaitSpec (probeOutcome sn p) = true)
    (ht : t.absent) (hp : JQStatusDeleted ∉ conf.Pending) (hs : JQStatusDeleted ∉ conf.Target)
    (htime : dueInTime conf.toWaitSpec (latencies pre)) :
    WaitForStateContext P conf (jobQueueRefreshStatusFunc sn) conn =
      .ok ((some (.int 42), some (.unexpectedStatus JQStatusDeleted conf.Target)),
        conn.afterProbes sn (pre.length + 1) rest) := by
  rw [WaitForStateContext_settles P conf sn conn pre t rest _ _ hscript hpre
    (probeOutcome_absent sn t ht)
    (by intro last; simp [classifyOutcome, StateChangeConf.toWaitSpec, hs, hp]; rfl) htime]
  rfl

theorem created_disjoint (timeout : Nat) :
    ∀ s ∈ (waitJobQueueCreatedConf timeout).Pending, s ∉ (waitJobQueueCreatedConf timeout).Target := by
  simp [waitJobQueueCreatedConf, JQStatusCreating, JQStatusUpdating, JQStatusValid]

theorem updated_disjoint (timeout : Nat) :
    ∀ s ∈ (waitJobQueueUpdatedConf timeout).Pending, s ∉ (waitJobQueueUpdatedConf timeout).Target := by
  simp [waitJobQueueUpdatedConf, JQStatusUpdating, JQStatusValid]

theorem deleted_disjoint (timeout : Nat) :
    ∀ s ∈ (waitJobQueueDeletedConf timeout).Pending, s ∉ (waitJobQueueDeletedConf timeout).Target := by
  simp [waitJobQueueDeletedConf, JQStateDisabled, JQStatusDeleting, JQStatusDeleted]

theorem disable_disjoint (timeout : Nat) :
    ∀ s ∈ (disableJobQueueConf timeout).Pending, s ∉ (disableJobQueueConf timeout).Target := by
  simp [disableJobQueueConf, JQStatusUpdating, JQStatusValid]

end batch

/-! ## The job queue waits -/

namespace batch

open retry

/-- C1: `waitJobQueueDeleted` over `jobQueueRefreshStatusFunc`: after any number
of probes that observe status `DELETING`, the first probe that finds no job
queue ends the wait with a nil error, at exactly that probe, although no probe
ever observed the status `DELETED`. -/
theorem waitJobQueueDeleted_absent_succeeds (P : WaitPolicy) (conn : Conn) (id : String)
    (timeout : Nat) (pre : List Probe) (t : Probe) (rest : List Probe)
    (hscript : conn.describeJobQueues = pre ++ t :: rest)
    (hpre : ∀ p ∈ pre, p.observesStatusIn [JQStatusDeleting] = true)
    (ht : t.absent)
    (htime : dueInTime (waitJobQueueDeletedConf timeout).toWaitSpec (latencies pre)) :
    waitJobQueueDeleted P conn id timeout =
        .ok ((none, none), conn.afterProbes id (pre.length + 1) rest) ∧
      ∀ p ∈ pre ++ [t], p.observesStatusIn [JQStatusDeleted] = false := by
  constructor
  · have hgo : ∀ p ∈ pre, goesOn P (waitJobQueueDeletedConf timeout).toWaitSpec
        (probeOutcome id p) = true := fun p hp =>
      goesOn_pending P _ id p (deleted_disjoint timeout)
        (observesStatusIn_mono _ _ (by simp [waitJobQueueDeletedConf]) p (hpre p hp))
    unfold waitJobQueueDeleted
    rw [wait_absent_target P _ id conn pre t rest hscript hgo ht
      (by simp [waitJobQueueDeletedConf]) htime]
    rfl
  · intro p hp
    rcases List.mem_append.mp hp with h | h
    · obtain ⟨q, s, hq, hs, hmem⟩ := observesStatusIn_finds _ p (hpre p h)
      unfold Probe.finds at hq
      have hs' : s = JQStatusDeleting := by simpa using hmem
      subst hs'
      simp [Probe.observesStatusIn, hq, hs, JQStatusDeleting, JQStatusDeleted]
    · have hpt : p = t := by simpa using h
      subst hpt
      unfold Probe.absent at ht
      simp [Probe.observesStatusIn, ht]

/-- C1 on the sequence `[DELETING, absent]`: success on the second probe. -/
theorem waitJobQueueDeleted_absent_succeeds_witness :
    waitJobQueueDeleted WaitPolicy.strict
        (sampleConn [] [] [sampleProbe JQStatusDeleting, absentProbe]) "q" (10 * time.Minute) =
      .ok ((none, none),
        (sampleConn [] [] [sampleProbe JQStatusDeleting, absentProbe]).afterProbes "q" 2 []) :=
  (waitJobQueueDeleted_absent_succeeds WaitPolicy.strict
    (sampleConn [] [] [sampleProbe JQStatusDeleting, absentProbe]) "q" (10 * time.Minute)
    [sampleProbe JQStatusDeleting] absentProbe [] rfl (by decide) (by decide) (by decide)).1

/-- C2: `waitJobQueueCreated` and `waitJobQueueUpdated` over
`jobQueueRefreshStatusFunc`: after any number of probes that observe a pending
status (`CREATING` or `UPDATING` for the former, `UPDATING` for the latter), the
first probe that finds a job queue `q` with status `VALID` ends the wait, which
returns exactly `q` and a nil error after exactly that many probes. -/
theorem waitJobQueueCreated_Updated_return_observed (P : WaitPolicy) (conn : Conn)
    (id : String) (timeout : Nat) (pre : List Probe) (t : Probe) (rest : List Probe)
    (q : JobQueueDetail)
    (hscript : conn.describeJobQueues = pre ++ t :: rest)
    (ht : t.finds q) (hq : q.Status = some JQStatusValid) :
    ((∀ p ∈ pre, p.observesStatusIn [JQStatusCreating, JQStatusUpdating] = true) →
      dueInTime (waitJobQueueCreatedConf timeout).toWaitSpec (latencies pre) →
      waitJobQueueCreated P conn id timeout =
        .ok ((some q, none), conn.afterProbes id (pre.length + 1) rest)) ∧
    ((∀ p ∈ pre, p.observesStatusIn [JQStatusUpdating] = true) →
      dueInTime (waitJobQueueUpdatedConf timeout).toWaitSpec (latencies pre) →
      waitJobQueueUpdated P conn id timeout =
        .ok ((some q, none), conn.afterProbes id (pre.length + 1) rest)) := by
  constructor
  · intro hpre htime
    have hgo : ∀ p ∈ pre, goesOn P (waitJobQueueCreatedConf timeout).toWaitSpec
        (probeOutcome id p) = true := fun p hp =>
      goesOn_pending P _ id p (created_disjoint timeout) (hpre p hp)
    unfold waitJobQueueCreated
    rw [wait_target P _ id conn pre t rest q _ hscript hgo ht hq
      (by simp [waitJobQueueCreatedConf]) htime]
    rfl
  · intro hpre htime
    have hgo : ∀ p ∈ pre, goesOn P (waitJobQueueUpdatedConf timeout).toWaitSpec
        (probeOutcome id p) = true := fun p hp =>
      goesOn_pending P _ id p (updated_disjoint timeout) (hpre p hp)
    unfold waitJobQueueUpdated
    rw [wait_target P _ id conn pre t rest q _ hscript hgo ht hq
      (by simp [waitJobQueueUpdatedConf]) htime]
    rfl

/-- C2 on the sequence `[CREATING, CREATING, VALID]`: the third observed object
after exactly three probes. -/
theorem waitJobQueueCreated_Updated_return_observed_witness :
    waitJobQueueCreated WaitPolicy.strict
        (sampleConn [] [] [sampleProbe JQStatusCreating, sampleProbe JQStatusCreating,
          sampleProbe JQStatusValid]) "q" (10 * time.Minute) =
      .ok ((some (sampleQueue JQStatusValid), none),
        (sampleConn [] [] [sampleProbe JQStatusCreating, sampleProbe JQStatusCreating,
          sampleProbe JQStatusValid]).afterProbes "q" 3 []) :=
  (waitJobQueueCreated_Updated_return_observed WaitPolicy.strict
    (sampleConn [] [] [sampleProbe JQStatusCreating, sampleProbe JQStatusCreating,
      sampleProbe JQStatusValid]) "q" (10 * time.Minute)
    [sampleProbe JQStatusCreating, sampleProbe JQStatusCreating] (sampleProbe JQStatusValid) []
    (sampleQueue JQStatusValid) rfl (by decide) rfl).1 (by decide) (by decide)

end batch

namespace batch

open retry

/-- C3: each job queue waiter (`waitJobQueueCreated`, `waitJobQueueUpdated`,
`waitJobQueueDeleted` and the wait inside `disableJobQueue`): after any number
of pending probes, the first probe that finds a job queue whose status `s` is in
neither the Pending nor the Target list of the waiter ends the wait with a
non-nil error; no further probe is made, the rest of the script is untouched. -/
theorem unexpected_status_fails_at_once (P : WaitPolicy) (conn : Conn) (id : String)
    (timeout : Nat) (pre : List Probe) (t : Probe) (rest : List Probe) (q : JobQueueDetail)
    (s : String)
    (hscript : conn.describeJobQueues = pre ++ t :: rest)
    (ht : t.finds q) (hq : q.Status = some s) :
    ((∀ p ∈ pre, p.observesStatusIn (waitJobQueueCreatedConf timeout).Pending = true) →
      s ∉ (waitJobQueueCreatedConf timeout).Pending →
      s ∉ (waitJobQueueCreatedConf timeout).Target →
      dueInTime (waitJobQueueCreatedConf timeout).toWaitSpec (latencies pre) →
      waitJobQueueCreated P conn id timeout =
        .ok ((some q, some (.unexpectedStatus s [JQStatusValid])),
          conn.afterProbes id (pre.length + 1) rest)) ∧
    ((∀ p ∈ pre, p.observesStatusIn (waitJobQueueUpdatedConf timeout).Pending = true) →
      s ∉ (waitJobQueueUpdatedConf timeout).Pending →
      s ∉ (waitJobQueueUpdatedConf timeout).Target →
      dueInTime (waitJobQueueUpdatedConf timeout).toWaitSpec (latencies pre) →
      waitJobQueueUpdated P conn id timeout =
        .ok ((some q, some (.unexpectedStatus s [JQStatusValid])),
          conn.afterProbes id (pre.length + 1) rest)) ∧
    ((∀ p ∈ pre, p.observesStatusIn (waitJobQueueDeletedConf timeout).Pending = true) →
      s ∉ (waitJobQueueDeletedConf timeout).Pending →
      s ∉ (waitJobQueueDeletedConf timeout).Target →
      dueInTime (waitJobQueueDeletedConf timeout).toWaitSpec (latencies pre) →
      waitJobQueueDeleted P conn id timeout =
        .ok ((some q, some (.unexpectedStatus s [JQStatusDeleted])),
          conn.afterProbes id (pre.length + 1) rest)) ∧
    (∀ us : List (Option GoError), conn.updateJobQueue = none :: us →
      (∀ p ∈ pre, p.observesStatusIn (disableJobQueueConf timeout).Pending = true) →
      s ∉ (disableJobQueueConf timeout).Pending →
      s ∉ (disableJobQueueConf timeout).Target →
      dueInTime (disableJobQueueConf timeout).toWaitSpec (latencies pre) →
      disableJobQueue P conn id timeout =
        .ok (some (.unexpectedStatus s [JQStatusValid]),
          { conn with
            updateJobQueue := us
            describeJobQueues := rest
            calls := conn.calls ++ [.UpdateJobQueue (disableInput id)] ++
              List.replicate (pre.length + 1) (.DescribeJobQueues (describeOpts id)) })) := by
  refine ⟨?_, ?_, ?_, ?_⟩
  · intro hpre hp hs htime
    unfold waitJobQueueCreated
    rw [wait_unexpected P _ id conn pre t rest q s hscript
      (fun p h => goesOn_pending P _ id p (created_disjoint timeout) (hpre p h))
      ht hq hp hs htime]
    rfl
  · intro hpre hp hs htime
    unfold waitJobQueueUpdated
    rw [wait_unexpected P _ id conn pre t rest q s hscript
      (fun p h => goesOn_pending P _ id p (updated_disjoint timeout) (hpre p h))
      ht hq hp hs htime]
    rfl
  · intro hpre hp hs htime
    unfold waitJobQueueDeleted
    rw [wait_unexpected P _ id conn pre t rest q s hscript
      (fun p h => goesOn_pending P _ id p (deleted_disjoint timeout) (hpre p h))
      ht hq hp hs htime]
    rfl
  · intro us hus hpre hp hs htime
    unfold disableJobQueue
    simp only [Conn.UpdateJobQueueWithContext, hus]
    rw [wait_unexpected P _ id
      { conn with
        updateJobQueue := us
        calls := conn.calls ++ [.UpdateJobQueue (disableInput id)] }
      pre t rest q s hscript
      (fun p h => goesOn_pending P _ id p (disable_disjoint timeout) (hpre p h))
      ht hq hp hs htime]
    simp [Conn.afterProbes, disableJobQueueConf]

/-- C3 on the sequence `[CREATING, INVALID, VALID]`: `waitJobQueueCreated` fails
at the second probe and leaves the third unmade. -/
theorem unexpected_status_fails_at_once_witness :
    waitJobQueueCreated WaitPolicy.strict
        (sampleConn [] [] [sampleProbe JQStatusCreating, sampleProbe JQStatusInvalid,
          sampleProbe JQStatusValid]) "q" (10 * time.Minute) =
      .ok ((some (sampleQueue JQStatusInvalid),
          some (.unexpectedStatus JQStatusInvalid [JQStatusValid])),
        (sampleConn [] [] [sampleProbe JQStatusCreating, sampleProbe JQStatusInvalid,
          sampleProbe JQStatusValid]).afterProbes "q" 2 [sampleProbe JQStatusValid]) :=
  (unexpected_status_fails_at_once WaitPolicy.strict
    (sampleConn [] [] [sampleProbe JQStatusCreating, sampleProbe JQStatusInvalid,
      sampleProbe JQStatusValid]) "q" (10 * time.Minute)
    [sampleProbe JQStatusCreating] (sampleProbe JQStatusInvalid) [sampleProbe JQStatusValid]
    (sampleQueue JQStatusInvalid) JQStatusInvalid rfl (by decide) rfl).1
    (by decide) (by decide) (by decide) (by decide)

/-- C4: the waiters whose target is `VALID` (`waitJobQueueCreated`,
`waitJobQueueUpdated` and the wait inside `disableJobQueue`): after any number
of pending probes, a probe that finds no job queue ends the wait with a non-nil
error, the unexpected status `DELETED` that `jobQueueRefreshStatusFunc` reports
for absence; the wait neither succeeds nor polls on. -/
theorem absent_fails_when_target_is_valid (P : WaitPolicy) (conn : Conn) (id : String)
    (timeout : Nat) (pre : List Probe) (t : Probe) (rest : List Probe)
    (hscript : conn.describeJobQueues = pre ++ t :: rest)
    (ht : t.absent) :
    ((∀ p ∈ pre, p.observesStatusIn (waitJobQueueCreatedConf timeout).Pending = true) →
      dueInTime (waitJobQueueCreatedConf timeout).toWaitSpec (latencies pre) →
      waitJobQueueCreated P conn id timeout =
        .ok ((none, some (.unexpectedStatus JQStatusDeleted [JQStatusValid])),
          conn.afterProbes id (pre.length + 1) rest)) ∧
    ((∀ p ∈ pre, p.observesStatusIn (waitJobQueueUpdatedConf timeout).Pending = true) →
      dueInTime (waitJobQueueUpdatedConf timeout).toWaitSpec (latencies pre) →
      waitJobQueueUpdated P conn id timeout =
        .ok ((none, some (.unexpectedStatus JQStatusDeleted [JQStatusValid])),
          conn.afterProbes id (pre.length + 1) rest)) ∧
    (∀ us : List (Option GoError), conn.updateJobQueue = none :: us →
      (∀ p ∈ pre, p.observesStatusIn (disableJobQueueConf timeout).Pending = true) →
      dueInTime (disableJobQueueConf timeout).toWaitSpec (latencies pre) →
      disableJobQueue P conn id timeout =
        .ok (some (.unexpectedStatus JQStatusDeleted [JQStatusValid]),
          { conn with
            updateJobQueue := us
            describeJobQueues := rest
            calls := conn.calls ++ [.UpdateJobQueue (disableInput id)] ++
              List.replicate (pre.length + 1) (.DescribeJobQueues (describeOpts id)) })) := by
  refine ⟨?_, ?_, ?_⟩
  · intro hpre htime
    unfold waitJobQueueCreated
    rw [wait_absent_unexpected P _ id conn pre t rest hscript
      (fun p h => goesOn_pending P _ id p (created_disjoint timeout) (hpre p h)) ht
      (by simp [waitJobQueueCreatedConf, JQStatusDeleted, JQStatusCreating, JQStatusUpdating])
      (by simp [waitJobQueueCreatedConf, JQStatusDeleted, JQStatusValid]) htime]
    rfl
  · intro hpre htime
    unfold waitJobQueueUpdated
    rw [wait_absent_unexpected P _ id conn pre t rest hscript
      (fun p h => goesOn_pending P _ id p (updated_disjoint timeout) (hpre p h)) ht
      (by simp [waitJobQueueUpdatedConf, JQStatusDeleted, JQStatusUpdating])
      (by simp [waitJobQueueUpdatedConf, JQStatusDeleted, JQStatusValid]) htime]
    rfl
  · intro us hus hpre htime
    unfold disableJobQueue
    simp only [Conn.UpdateJobQueueWithContext, hus]
    rw [wait_absent_unexpected P _ id
      { conn with
        updateJobQueue := us
        calls := conn.calls ++ [.UpdateJobQueue (disableInput id)] }
      pre t rest hscript
      (fun p h => goesOn_pending P _ id p (disable_disjoint timeout) (hpre p h)) ht
      (by simp [disableJobQueueConf, JQStatusDeleted, JQStatusUpdating])
      (by simp [disableJobQueueConf, JQStatusDeleted, JQStatusValid]) htime]
    simp [Conn.afterProbes, disableJobQueueConf]

/-- C4 on the sequence `[UPDATING, absent]`: `waitJobQueueUpdated` fails at the
second probe. -/
theorem absent_fails_when_target_is_valid_witness :
    waitJobQueueUpdated WaitPolicy.strict
        (sampleConn [] [] [sampleProbe JQStatusUpdating, absentProbe]) "q"
        (10 * time.Minute) =
      .ok ((none, some (.unexpectedStatus JQStatusDeleted [JQStatusValid])),
        (sampleConn [] [] [sampleProbe JQStatusUpdating, absentProbe]).afterProbes "q" 2 []) :=
  (absent_fails_when_target_is_valid WaitPolicy.strict
    (sampleConn [] [] [sampleProbe JQStatusUpdating, absentProbe]) "q" (10 * time.Minute)
    [sampleProbe JQStatusUpdating] absentProbe [] rfl (by decide)).2.1 (by decide) (by decide)

end batch

namespace batch

open retry

/-- C6: every wait the job queue module sets up (in `disableJobQueue`,
`waitJobQueueCreated`, `waitJobQueueUpdated` and `waitJobQueueDeleted`) has
disjoint pending and target statuses, whatever its timeout; and the timeouts
the resource supplies by default are ten minutes each, hence positive. -/
theorem waits_disjoint_and_default_timeouts_positive (timeout : Nat) :
    List.Disjoint (disableJobQueueConf timeout).toWaitSpec.pendingStatuses
        (disableJobQueueConf timeout).toWaitSpec.targetStatuses ∧
      List.Disjoint (waitJobQueueCreatedConf timeout).toWaitSpec.pendingStatuses
        (waitJobQueueCreatedConf timeout).toWaitSpec.targetStatuses ∧
      List.Disjoint (waitJobQueueUpdatedConf timeout).toWaitSpec.pendingStatuses
        (waitJobQueueUpdatedConf timeout).toWaitSpec.targetStatuses ∧
      List.Disjoint (waitJobQueueDeletedConf timeout).toWaitSpec.pendingStatuses
        (waitJobQueueDeletedConf timeout).toWaitSpec.targetStatuses ∧
      (∀ u d : Option Nat,
        newResourceJobQueue.CreateTimeout { Create := none, Update := u, Delete := d } =
          10 * time.Minute ∧
        0 < (waitJobQueueCreatedConf (newResourceJobQueue.CreateTimeout
          { Create := none, Update := u, Delete := d })).toWaitSpec.timeout) ∧
      (∀ c d : Option Nat,
        newResourceJobQueue.UpdateTimeout { Create := c, Update := none, Delete := d } =
          10 * time.Minute ∧
        0 < (waitJobQueueUpdatedConf (newResourceJobQueue.UpdateTimeout
          { Create := c, Update := none, Delete := d })).toWaitSpec.timeout) ∧
      (∀ c u : Option Nat,
        newResourceJobQueue.DeleteTimeout { Create := c, Update := u, Delete := none } =
          10 * time.Minute ∧
        0 < (disableJobQueueConf (newResourceJobQueue.DeleteTimeout
          { Create := c, Update := u, Delete := none })).toWaitSpec.timeout ∧
        0 < (waitJobQueueDeletedConf (newResourceJobQueue.DeleteTimeout
          { Create := c, Update := u, Delete := none })).toWaitSpec.timeout) := by
  refine ⟨?_, ?_, ?_, ?_, ?_, ?_, ?_⟩
  · intro s hp ht
    exact disable_disjoint timeout s hp ht
  · intro s hp ht
    exact created_disjoint timeout s hp ht
  · intro s hp ht
    exact updated_disjoint timeout s hp ht
  · intro s hp ht
    exact deleted_disjoint timeout s hp ht
  · intro u d
    simp [resourceJobQueue.CreateTimeout, newResourceJobQueue, waitJobQueueCreatedConf,
      StateChangeConf.toWaitSpec, time.Minute, time.Second]
  · intro c d
    simp [resourceJobQueue.UpdateTimeout, newResourceJobQueue, waitJobQueueUpdatedConf,
      StateChangeConf.toWaitSpec, time.Minute, time.Second]
  · intro c u
    simp [resourceJobQueue.DeleteTimeout, newResourceJobQueue, waitJobQueueDeletedConf,
      disableJobQueueConf, StateChangeConf.toWaitSpec, time.Minute, time.Second]

end batch

/-! ## The reconciliation operations -/

namespace retry

theorem classifyOutcome_success (P : WaitPolicy) (spec : WaitSpec) (last : Option ObservedState)
    (out : PollOutcome) (o : ObservedState)
    (h : classifyOutcome P spec last out = .done (.Success o)) :
    out = .Observed o ∧ (o.present = true → o.status ∈ spec.targetStatuses) := by
  cases out with
  | ProbeError e =>
    simp only [classifyOutcome] at h
    cases hc : P.classify e <;> simp [hc] at h
  | Observed o' =>
    simp only [classifyOutcome] at h
    split_ifs at h with h1 h2 h3 h4
    all_goals simp at h
    · subst h
      simp [h1]
    · subst h
      simp [h3]

/-- A wait that succeeds does so at its last probe, which observed the returned
state; when the object was present its status is a target status. -/
theorem waitLoop_success (P : WaitPolicy) (spec : WaitSpec) (o : ObservedState) :
    ∀ (probes : List Timed) (first : Bool) (elapsed : Nat) (last : Option ObservedState)
      (n : Nat), waitLoop P spec probes first elapsed last = .ok (.Success o, n) →
      0 < n ∧ (∃ t, probes[n - 1]? = some t ∧ t.outcome = some (.Observed o)) ∧
        (o.present = true → o.status ∈ spec.targetStatuses) := by
  intro probes
  induction probes with
  | nil =>
    intro first elapsed last n h
    simp only [waitLoop] at h
    split_ifs at h
    simp at h
  | cons p rest ih =>
    intro first elapsed last n h
    simp only [waitLoop] at h
    split_ifs at h
    · simp at h
    · cases hout : p.outcome with
      | none => simp [hout] at h
      | some out =>
        simp only [hout] at h
        cases hc : classifyOutcome P spec last out with
        | done r =>
          simp only [hc] at h
          simp at h
          obtain ⟨hr, hn⟩ := h
          subst hr hn
          obtain ⟨ho, hstat⟩ := classifyOutcome_success P spec last out o hc
          exact ⟨by omega, ⟨p, by simp, by rw [hout, ho]⟩, hstat⟩
        | again l =>
          simp only [hc] at h
          cases hrec : waitLoop P spec rest false (elapsed + p.latency + spec.interval) l with
          | panic => simp [hrec] at h
          | exhausted => simp [hrec] at h
          | ok x =>
            rcases x with ⟨r', n'⟩
            simp only [hrec] at h
            simp at h
            obtain ⟨hr, hn⟩ := h
            subst hr hn
            obtain ⟨hpos, ⟨t, ht, hto⟩, hstat⟩ := ih false _ l n' hrec
            refine ⟨by omega, ⟨t, ?_, hto⟩, hstat⟩
            obtain ⟨k, rfl⟩ : ∃ k, n' = k + 1 := ⟨n' - 1, by omega⟩
            simpa using ht

/-- Every wait that returns has made at least one probe, unless it timed out
before the probe was due; a wait never times out before its first probe. -/
theorem Wait_probes_pos (P : WaitPolicy) (spec : WaitSpec) (probes : List Timed)
    (r : ReconciliationResult) (n : Nat) (h : Wait P spec probes = .ok (r, n)) : 0 < n := by
  unfold Wait at h
  cases probes with
  | nil => simp [waitLoop] at h
  | cons p rest =>
    simp only [waitLoop] at h
    simp at h
    cases hout : p.outcome with
    | none => simp [hout] at h
    | some out =>
      simp only [hout] at h
      cases hc : classifyOutcome P spec none out with
      | done r0 =>
        simp [hc] at h
        omega
      | again l =>
        simp only [hc] at h
        cases hrec : waitLoop P spec rest false
            (spec.initialDelay + p.latency + spec.interval) l with
        | panic => simp [hrec] at h
        | exhausted => simp [hrec] at h
        | ok x =>
          simp [hrec] at h
          omega

end retry

namespace batch

open retry basetypes

theorem toGo_success (r : ReconciliationResult) (x : Option Iface)
    (h : r.toGo = (x, none)) : ∃ o, r = .Success o ∧ o.object = x := by
  cases r with
  | Success o =>
    simp [ReconciliationResult.toGo] at h
    exact ⟨o, rfl, h⟩
  | Timeout l => simp [ReconciliationResult.toGo] at h
  | Failed e c l => simp [ReconciliationResult.toGo] at h

theorem probeOutcome_jobQueue (sn : String) (p : Probe) (o : ObservedState)
    (q : JobQueueDetail) (h : probeOutcome sn p = some (.Observed o))
    (hobj : o.object = some (.jobQueue q)) :
    p.finds q ∧ q.Status = some o.status ∧ o.present = true := by
  rcases p with ⟨lat, reply⟩
  cases reply with
  | err e =>
    simp [probeOutcome, jobQueueRefreshStatusFunc, findJobQueueByNameReply,
      Refreshed.toPollOutcome] at h
  | ok resp =>
    rcases resp with ⟨qs⟩
    match qs, h with
    | [], h =>
      simp [probeOutcome, jobQueueRefreshStatusFunc, findJobQueueByNameReply,
        Refreshed.toPollOutcome] at h
      subst h
      simp at hobj
    | [q0], h =>
      cases hs : q0.Status with
      | none =>
        simp [probeOutcome, jobQueueRefreshStatusFunc, findJobQueueByNameReply, hs] at h
      | some s =>
        simp [probeOutcome, jobQueueRefreshStatusFunc, findJobQueueByNameReply, hs,
          Refreshed.toPollOutcome] at h
        subst h
        simp at hobj
        subst hobj
        exact ⟨rfl, hs, rfl⟩
    | _ :: _ :: _, h =>
      simp [probeOutcome, jobQueueRefreshStatusFunc, findJobQueueByNameReply,
        Refreshed.toPollOutcome] at h

/-- A wait that returns made at least one probe, all of them `DescribeJobQueues`
calls for the awaited queue, and touched nothing else of the connection. -/
theorem WaitForStateContext_calls (P : WaitPolicy) (conf : StateChangeConf) (sn : String)
    (c c' : Conn) (x : Option Iface × Option GoError)
    (h : WaitForStateContext P conf (jobQueueRefreshStatusFunc sn) c = .ok (x, c')) :
    ∃ n, 0 < n ∧ c' = c.afterProbes sn n (c.describeJobQueues.drop n) := by
  unfold WaitForStateContext at h
  cases hw : Wait P conf.toWaitSpec ((jobQueueRefreshStatusFunc sn).probes c.describeJobQueues) with
  | panic => simp [hw] at h
  | exhausted => simp [hw] at h
  | ok y =>
    rcases y with ⟨r, n⟩
    simp [hw] at h
    exact ⟨n, Wait_probes_pos _ _ _ _ _ hw, h.2.symm⟩

/-- A wait that returns a job queue and no error has, at its last probe, found
that job queue in a target status. -/
theorem WaitForStateContext_success (P : WaitPolicy) (conf : StateChangeConf) (sn : String)
    (c c' : Conn) (q : JobQueueDetail)
    (h : WaitForStateContext P conf (jobQueueRefreshStatusFunc sn) c =
      .ok ((some (.jobQueue q), none), c')) :
    ∃ n p s, 0 < n ∧ c.describeJobQueues[n - 1]? = some p ∧ p.finds q ∧ q.Status = some s ∧
      s ∈ conf.Target ∧ c' = c.afterProbes sn n (c.describeJobQueues.drop n) := by
  obtain ⟨n0, _, hc0⟩ := WaitForStateContext_calls P conf sn c c' _ h
  unfold WaitForStateContext at h
  cases hw : Wait P conf.toWaitSpec ((jobQueueRefreshStatusFunc sn).probes c.describeJobQueues) with
  | panic => simp [hw] at h
  | exhausted => simp [hw] at h
  | ok y =>
    rcases y with ⟨r, n⟩
    simp [hw] at h
    obtain ⟨hgo, hconn⟩ := h
    obtain ⟨o, rfl, hobj⟩ := toGo_success r _ hgo
    obtain ⟨hpos, ⟨t, ht, hto⟩, hstat⟩ := waitLoop_success P _ o _ true _ none n hw
    rw [probes_eq_map, List.getElem?_map] at ht
    cases hp : c.describeJobQueues[n - 1]? with
    | none => simp [hp] at ht
    | some p =>
      simp [hp] at ht
      subst ht
      obtain ⟨hfinds, hs, hpres⟩ := probeOutcome_jobQueue sn p o q hto hobj
      exact ⟨n, p, o.status, hpos, hp, hfinds, hs, hstat hpres, hconn.symm⟩

theorem assertJobQueueDetail_some (raw : Option Iface × Option GoError) (q : JobQueueDetail)
    (e : Option GoError) (h : assertJobQueueDetail raw = (some q, e)) :
    raw = (some (.jobQueue q), e) := by
  rcases raw with ⟨x, err⟩
  cases x with
  | none => simp [assertJobQueueDetail] at h
  | some i =>
    cases i with
    | jobQueue d =>
      simp [assertJobQueueDetail] at h
      simp [h]
    | int k => simp [assertJobQueueDetail] at h

theorem assertJobQueueDetail_err (raw : Option Iface × Option GoError) :
    (assertJobQueueDetail raw).2 = raw.2 := by
  rcases raw with ⟨x, err⟩
  cases x with
  | none => rfl
  | some i =>
    cases i <;> rfl

end batch

namespace batch

open retry basetypes

/-- How `disableJobQueue` returns: with the error of a failed update and no
probe made, or with the error of the wait that followed a successful update. -/
theorem disableJobQueue_returns (P : WaitPolicy) (conn conn1 : Conn) (id : String)
    (timeout : Nat) (e : Option GoError)
    (h : disableJobQueue P conn id timeout = .ok (e, conn1)) :
    (∃ err us, conn.updateJobQueue = some err :: us ∧ e = some err ∧
      conn1 = { conn with
        updateJobQueue := us
        calls := conn.calls ++ [.UpdateJobQueue (disableInput id)] }) ∨
    (∃ us raw, conn.updateJobQueue = none :: us ∧
      WaitForStateContext P (disableJobQueueConf timeout) (jobQueueRefreshStatusFunc id)
        { conn with
          updateJobQueue := us
          calls := conn.calls ++ [.UpdateJobQueue (disableInput id)] } =
        .ok ((raw, e), conn1)) := by
  unfold disableJobQueue at h
  cases hu : conn.updateJobQueue with
  | nil => simp [Conn.UpdateJobQueueWithContext, hu] at h
  | cons u us =>
    cases u with
    | some err =>
      simp [Conn.UpdateJobQueueWithContext, hu] at h
      exact Or.inl ⟨err, us, rfl, h.1.symm, h.2.symm⟩
    | none =>
      simp only [Conn.UpdateJobQueueWithContext, hu] at h
      cases hw : WaitForStateContext P (disableJobQueueConf timeout)
          (jobQueueRefreshStatusFunc id)
          { conn with
            updateJobQueue := us
            calls := conn.calls ++ [.UpdateJobQueue (disableInput id)] } with
      | panic => simp [hw] at h
      | exhausted => simp [hw] at h
      | ok y =>
        rcases y with ⟨⟨raw, err⟩, c2⟩
        simp [hw] at h
        obtain ⟨h1, h2⟩ := h
        subst h1 h2
        exact Or.inr ⟨us, raw, rfl, hw⟩

/-- The calls `disableJobQueue` makes: the disabling update, then probes. -/
theorem disableJobQueue_calls (P : WaitPolicy) (conn conn1 : Conn) (id : String)
    (timeout : Nat) (e : Option GoError)
    (h : disableJobQueue P conn id timeout = .ok (e, conn1)) :
    ∃ n, conn1.calls = conn.calls ++ .UpdateJobQueue (disableInput id) ::
        List.replicate n (.DescribeJobQueues (describeOpts id)) ∧
      conn1.deleteJobQueue = conn.deleteJobQueue ∧ (e = none → 0 < n) := by
  rcases disableJobQueue_returns P conn conn1 id timeout e h with
    ⟨err, us, _, he, hc⟩ | ⟨us, raw, _, hw⟩
  · subst hc he
    exact ⟨0, by simp, rfl, by simp⟩
  · obtain ⟨n, hpos, hc⟩ := WaitForStateContext_calls P _ id _ conn1 _ hw
    subst hc
    exact ⟨n, by simp [Conn.afterProbes], rfl, fun _ => hpos⟩

theorem probeOutcome_observed (sn : String) (p : Probe) (o : ObservedState)
    (h : probeOutcome sn p = some (.Observed o)) :
    (∃ q, p.finds q ∧ q.Status = some o.status ∧ o.present = true) ∨
    (p.absent ∧ o.status = JQStatusDeleted ∧ o.present = true) := by
  rcases p with ⟨lat, reply⟩
  cases reply with
  | err e =>
    simp [probeOutcome, jobQueueRefreshStatusFunc, findJobQueueByNameReply,
      Refreshed.toPollOutcome] at h
  | ok resp =>
    rcases resp with ⟨qs⟩
    match qs, h with
    | [], h =>
      simp [probeOutcome, jobQueueRefreshStatusFunc, findJobQueueByNameReply,
        Refreshed.toPollOutcome] at h
      subst h
      exact Or.inr ⟨rfl, rfl, rfl⟩
    | [q0], h =>
      cases hs : q0.Status with
      | none =>
        simp [probeOutcome, jobQueueRefreshStatusFunc, findJobQueueByNameReply, hs] at h
      | some s =>
        simp [probeOutcome, jobQueueRefreshStatusFunc, findJobQueueByNameReply, hs,
          Refreshed.toPollOutcome] at h
        subst h
        exact Or.inl ⟨q0, rfl, hs, rfl⟩
    | _ :: _ :: _, h =>
      simp [probeOutcome, jobQueueRefreshStatusFunc, findJobQueueByNameReply,
        Refreshed.toPollOutcome] at h

/-- A wait that returns without error ended at a probe that reached the target:
it found the job queue in a target status, or found none while `DELETED` is a
target status. -/
theorem WaitForStateContext_no_error (P : WaitPolicy) (conf : StateChangeConf) (sn : String)
    (c c' : Conn) (raw : Option Iface)
    (h : WaitForStateContext P conf (jobQueueRefreshStatusFunc sn) c = .ok ((raw, none), c')) :
    ∃ n p, 0 < n ∧ c.describeJobQueues[n - 1]? = some p ∧
      ((∃ q s, p.finds q ∧ q.Status = some s ∧ s ∈ conf.Target) ∨
        (p.absent ∧ JQStatusDeleted ∈ conf.Target)) ∧
      c' = c.afterProbes sn n (c.describeJobQueues.drop n) := by
  unfold WaitForStateContext at h
  cases hw : Wait P conf.toWaitSpec ((jobQueueRefreshStatusFunc sn).probes c.describeJobQueues) with
  | panic => simp [hw] at h
  | exhausted => simp [hw] at h
  | ok y =>
    rcases y with ⟨r, n⟩
    simp [hw] at h
    obtain ⟨hgo, hconn⟩ := h
    obtain ⟨o, rfl, _⟩ := toGo_success r _ hgo
    obtain ⟨hpos, ⟨t, ht, hto⟩, hstat⟩ := waitLoop_success P _ o _ true _ none n hw
    rw [probes_eq_map, List.getElem?_map] at ht
    cases hp : c.describeJobQueues[n - 1]? with
    | none => simp [hp] at ht
    | some p =>
      simp [hp] at ht
      subst ht
      refine ⟨n, p, hpos, hp, ?_, hconn.symm⟩
      rcases probeOutcome_observed sn p o hto with ⟨q, hq, hs, hpres⟩ | ⟨ha, hs, hpres⟩
      · exact Or.inl ⟨q, o.status, hq, hs, hstat hpres⟩
      · refine Or.inr ⟨ha, ?_⟩
        have := hstat hpres
        rw [hs] at this
        exact this

/-- C7: in every run of `resourceJobQueue.Delete` that returns, the remote calls
come in a fixed order. Either the state did not decode and no call is made; or
the disabling `UpdateJobQueue(State = DISABLED)` is followed by probes only, the
disable step having failed, and no `DeleteJobQueue` is sent; or
`DeleteJobQueue` is sent, and then the disabling update had succeeded and the
wait after it had returned without error, its last probe having found the queue
with status `VALID`, before the delete call; probes follow the delete call only
when `DeleteJobQueue` itself succeeded. -/
theorem Delete_calls_in_order (r : resourceJobQueue) (P : WaitPolicy) (conn conn' : Conn)
    (state : Decoded) (resp : Response)
    (h : r.Delete P conn state = .ok (resp, conn')) :
    DeleteOrder r P conn conn' state := by
  unfold DeleteOrder
  unfold resourceJobQueue.Delete at h
  by_cases hd : diag.HasError state.diags = true
  · simp [hd] at h
    left
    exact ⟨hd, by rw [h.2]⟩
  · have hd' : diag.HasError state.diags = false := by simpa using hd
    simp only [hd] at h
    cases hdis : disableJobQueue P conn (ValueString state.data.ID)
        (r.DeleteTimeout state.data.Timeouts) with
    | panic => simp [hdis] at h
    | exhausted => simp [hdis] at h
    | ok y =>
      rcases y with ⟨e, conn1⟩
      obtain ⟨n0, hcalls0, _, _⟩ := disableJobQueue_calls P conn conn1 _ _ e hdis
      cases e with
      | some err =>
        simp [hdis] at h
        right
        left
        obtain ⟨_, hc⟩ := h
        subst hc
        exact ⟨hd', err, n0, rfl, hcalls0⟩
      | none =>
        simp only [hdis] at h
        right
        right
        rcases disableJobQueue_returns P conn conn1 _ _ none hdis with
          ⟨err, us, _, he, _⟩ | ⟨us, raw, hus, hw⟩
        · simp at he
        · obtain ⟨n, p, hpos, hp, htarget, hc1⟩ :=
            WaitForStateContext_no_error P _ _ _ conn1 raw hw
          have hvalid : ∃ q, p.finds q ∧ q.Status = some "VALID" := by
            rcases htarget with ⟨q, s, hq, hs, hmem⟩ | ⟨_, hmem⟩
            · have hs' : s = "VALID" := by
                simpa [disableJobQueueConf, JQStatusValid] using hmem
              subst hs'
              exact ⟨q, hq, hs⟩
            · simp [disableJobQueueConf, JQStatusValid, JQStatusDeleted] at hmem
          obtain ⟨q, hq, hqs⟩ := hvalid
          have hcalls : conn1.calls = conn.calls ++
              .UpdateJobQueue
                { JobQueue := some (ValueString state.data.ID), ComputeEnvironmentOrder := [],
                  Priority := none, State := some "DISABLED", SchedulingPolicyArn := none } ::
                List.replicate n
                  (.DescribeJobQueues { JobQueues := [some (ValueString state.data.ID)] }) := by
            rw [hc1]
            simp [Conn.afterProbes, disableInput, describeOpts, JQStateDisabled]
          cases hdel : conn1.deleteJobQueue with
          | nil => simp [Conn.DeleteJobQueueWithContext, hdel] at h
          | cons d ds =>
            cases d with
            | some err =>
              simp [Conn.DeleteJobQueueWithContext, hdel] at h
              refine ⟨hd', us, raw, conn1, n, 0, p, q, hus, hw, hpos, hp, hq, hqs, hcalls, ?_,
                by simp⟩
              rw [← h.2]
              simp
            | none =>
              simp only [Conn.DeleteJobQueueWithContext, hdel] at h
              cases hwd : WaitForStateContext P
                  (waitJobQueueDeletedConf (r.DeleteTimeout state.data.Timeouts))
                  (jobQueueRefreshStatusFunc (ValueString state.data.ID))
                  { conn1 with
                    deleteJobQueue := ds
                    calls := conn1.calls ++ [.DeleteJobQueue
                      { JobQueue := flex.StringFromFramework state.data.ID }] } with
              | panic => simp [waitJobQueueDeleted, hwd] at h
              | exhausted => simp [waitJobQueueDeleted, hwd] at h
              | ok z =>
                rcases z with ⟨raw2, conn3⟩
                obtain ⟨m, _, hc3⟩ := WaitForStateContext_calls P _ _ _ conn3 _ hwd
                have hfin : conn' = conn3 := by
                  simp only [waitJobQueueDeleted, hwd] at h
                  cases herr : (assertJobQueueDetail raw2).2 with
                  | none =>
                    cases hx : assertJobQueueDetail raw2 with
                    | mk a b =>
                      rw [hx] at herr
                      simp at herr
                      subst herr
                      simp [hx] at h
                      exact h.2.symm
                  | some e2 =>
                    cases hx : assertJobQueueDetail raw2 with
                    | mk a b =>
                      rw [hx] at herr
                      simp at herr
                      subst herr
                      simp [hx] at h
                      exact h.2.symm
                refine ⟨hd', us, raw, conn1, n, m, p, q, hus, hw, hpos, hp, hq, hqs, hcalls, ?_,
                  fun _ => ⟨ds, hdel⟩⟩
                rw [hfin, hc3]
                simp [Conn.afterProbes, describeOpts]

end batch

namespace batch

open retry basetypes

/-- C7 on a delete that goes through: update, two probes, delete, two probes. -/
theorem Delete_calls_in_order_witness :
    newResourceJobQueue.Delete WaitPolicy.strict deleteScript { data := sampleData, diags := [] } =
        .ok ({ Diagnostics := [], State := none }, deleteScriptDone) ∧
      DeleteOrder newResourceJobQueue WaitPolicy.strict deleteScript deleteScriptDone
        { data := sampleData, diags := [] } :=
  ⟨by decide,
    Delete_calls_in_order newResourceJobQueue WaitPolicy.strict deleteScript deleteScriptDone
      { data := sampleData, diags := [] } { Diagnostics := [], State := none } (by decide)⟩

end batch

namespace batch

open retry basetypes

/-- C8: in `Create`, `Update` and `Delete`, when a mutation or the wait after it
returns an error, the operation ends there: the connection it leaves is the one
the failed step left (no further remote call, nothing undone), its response
carries one more error diagnostic whose detail is the message of that error,
and no state is written. When the disable step of `Delete` fails, the calls
made are the disabling update and probes only: `DeleteJobQueue` is not
called. -/
theorem failure_aborts_operation (r : resourceJobQueue) (P : WaitPolicy) (M : flex.Marshal) :
    (∀ (conn conn1 : Conn) (tagsIn : List (String × String)) (plan : Decoded) (e : GoError),
      diag.HasError plan.diags = false →
      conn.CreateJobQueueWithContext (createInput M tagsIn plan.data) = .ok (.err e, conn1) →
      r.Create P M conn tagsIn plan =
        .ok (failed plan.diags .Creating plan.data.Name e, conn1)) ∧
    (∀ (conn conn1 conn2 : Conn) (tagsIn : List (String × String)) (plan : Decoded)
      (output : CreateJobQueueOutput) (o : Option JobQueueDetail) (e : GoError),
      diag.HasError plan.diags = false →
      conn.CreateJobQueueWithContext (createInput M tagsIn plan.data) =
        .ok (.ok output, conn1) →
      waitJobQueueCreated P conn1 (ValueString plan.data.Name)
        (r.CreateTimeout plan.data.Timeouts) = .ok ((o, some e), conn2) →
      r.Create P M conn tagsIn plan =
        .ok (failed plan.diags .WaitingForCreation plan.data.Name e, conn2)) ∧
    (∀ (conn conn1 : Conn) (state plan : Decoded) (input : UpdateJobQueueInput) (e : GoError),
      diag.HasError (state.diags ++ plan.diags) = false →
      updateInput M plan.data state.data = .ok (true, input) →
      conn.UpdateJobQueueWithContext input = .ok (some e, conn1) →
      r.Update P M conn state plan =
        .ok (failed (state.diags ++ plan.diags) .Updating plan.data.Name e, conn1)) ∧
    (∀ (conn conn1 conn2 : Conn) (state plan : Decoded) (input : UpdateJobQueueInput)
      (o : Option JobQueueDetail) (e : GoError),
      diag.HasError (state.diags ++ plan.diags) = false →
      updateInput M plan.data state.data = .ok (true, input) →
      conn.UpdateJobQueueWithContext input = .ok (none, conn1) →
      waitJobQueueUpdated P conn1 (ValueString plan.data.ID)
        (r.UpdateTimeout plan.data.Timeouts) = .ok ((o, some e), conn2) →
      r.Update P M conn state plan =
        .ok (failed (state.diags ++ plan.diags) .WaitingForCreation plan.data.Name e, conn2)) ∧
    (∀ (conn conn1 : Conn) (state : Decoded) (e : GoError),
      diag.HasError state.diags = false →
      disableJobQueue P conn (ValueString state.data.ID)
        (r.DeleteTimeout state.data.Timeouts) = .ok (some e, conn1) →
      r.Delete P conn state = .ok (failed state.diags .Deleting state.data.Name e, conn1) ∧
      ∃ n, conn1.calls = conn.calls ++
        .UpdateJobQueue (disableInput (ValueString state.data.ID)) ::
          List.replicate n (.DescribeJobQueues (describeOpts (ValueString state.data.ID)))) ∧
    (∀ (conn conn1 conn2 : Conn) (state : Decoded) (e : GoError),
      diag.HasError state.diags = false →
      disableJobQueue P conn (ValueString state.data.ID)
        (r.DeleteTimeout state.data.Timeouts) = .ok (none, conn1) →
      conn1.DeleteJobQueueWithContext { JobQueue := flex.StringFromFramework state.data.ID } =
        .ok (some e, conn2) →
      r.Delete P conn state = .ok (failed state.diags .Deleting state.data.Name e, conn2)) ∧
    (∀ (conn conn1 conn2 conn3 : Conn) (state : Decoded) (o : Option JobQueueDetail)
      (e : GoError),
      diag.HasError state.diags = false →
      disableJobQueue P conn (ValueString state.data.ID)
        (r.DeleteTimeout state.data.Timeouts) = .ok (none, conn1) →
      conn1.DeleteJobQueueWithContext { JobQueue := flex.StringFromFramework state.data.ID } =
        .ok (none, conn2) →
      waitJobQueueDeleted P conn2 (ValueString state.data.ID)
        (r.DeleteTimeout state.data.Timeouts) = .ok ((o, some e), conn3) →
      r.Delete P conn state =
        .ok (failed state.diags .WaitingForDeletion state.data.Name e, conn3)) := by
  refine ⟨?_, ?_, ?_, ?_, ?_, ?_, ?_⟩
  · intro conn conn1 tagsIn plan e hd hc
    simp [resourceJobQueue.Create, hd, hc, failed, diag.AddError]
  · intro conn conn1 conn2 tagsIn plan output o e hd hc hw
    simp [resourceJobQueue.Create, hd, hc, hw, failed, diag.AddError]
  · intro conn conn1 state plan input e hd hi hu
    simp [resourceJobQueue.Update, hd, hi, hu, failed, diag.AddError]
  · intro conn conn1 conn2 state plan input o e hd hi hu hw
    simp [resourceJobQueue.Update, hd, hi, hu, hw, failed, diag.AddError]
  · intro conn conn1 state e hd hdis
    obtain ⟨n, hcalls, _, _⟩ := disableJobQueue_calls P conn conn1 _ _ _ hdis
    exact ⟨by simp [resourceJobQueue.Delete, hd, hdis, failed, diag.AddError], n, hcalls⟩
  · intro conn conn1 conn2 state e hd hdis hdel
    simp [resourceJobQueue.Delete, hd, hdis, hdel, failed, diag.AddError]
  · intro conn conn1 conn2 conn3 state o e hd hdis hdel hw
    simp [resourceJobQueue.Delete, hd, hdis, hdel, hw, failed, diag.AddError]

/-- C8 on a delete whose disabling update is refused: one call, one error
diagnostic with the message of the refusal, no `DeleteJobQueue`. -/
theorem failure_aborts_operation_witness :
    newResourceJobQueue.Delete WaitPolicy.strict
        (sampleConn [some (.api "ClientException")] [none] [sampleProbe JQStatusValid])
        { data := sampleData, diags := [] } =
      .ok (failed [] .Deleting sampleData.Name (.api "ClientException"),
        { sampleConn [] [none] [sampleProbe JQStatusValid] with
          calls := [.UpdateJobQueue (disableInput (ValueString sampleData.ID))] }) :=
  ((failure_aborts_operation newResourceJobQueue WaitPolicy.strict flex.Marshal.plain).2.2.2.2.1
    (sampleConn [some (.api "ClientException")] [none] [sampleProbe JQStatusValid])
    { sampleConn [] [none] [sampleProbe JQStatusValid] with
      calls := [.UpdateJobQueue (disableInput (ValueString sampleData.ID))] }
    { data := sampleData, diags := [] } (.api "ClientException") (by decide) (by decide)).1

end batch

namespace batch

open retry basetypes

theorem updateInput_unchanged (M : flex.Marshal) (plan state : resourceJobQueueData)
    (hun : unchanged plan state = true) :
    updateInput M plan state =
      .ok (if state.SchedulingPolicyARN.IsNull = true then
          (false, { JobQueue := flex.StringFromFramework plan.Name, ComputeEnvironmentOrder := [],
                    Priority := none, State := none, SchedulingPolicyArn := none })
        else (true, policyOnlyInput plan state)) := by
  simp only [unchanged, Bool.and_eq_true] at hun
  obtain ⟨⟨⟨h1, h2⟩, h3⟩, h4⟩ := hun
  unfold updateInput
  simp only [h1, h2, h3, h4]
  cases hn : state.SchedulingPolicyARN.IsNull <;> simp [policyOnlyInput]

/-- C9, at a concrete input: plan and prior state are the same job queue with a
scheduling policy, nothing differs, and `Update` still sends `UpdateJobQueue`. -/
theorem Update_unchanged_with_policy_updates :
    unchanged policyData policyData = true ∧
      callsOf (newResourceJobQueue.Update WaitPolicy.strict flex.Marshal.plain
        (sampleConn [none] [] [sampleProbe JQStatusValid])
        { data := policyData, diags := [] } { data := policyData, diags := [] }) =
      some [.UpdateJobQueue (policyOnlyInput policyData policyData),
        .DescribeJobQueues (describeOpts (ValueString policyData.ID))] := by
  decide

/-- C9, amended: when no mutable field differs between plan and prior state and
the prior state has a null scheduling policy ARN, `Update` returns without any
remote call, so without an `UpdateJobQueue` call. When the prior state's
scheduling policy ARN is not null, every run that returns has sent one
`UpdateJobQueue` call, which carries that ARN and no other change, before any
probe, although nothing differs. -/
theorem Update_unchanged_calls (r : resourceJobQueue) (P : WaitPolicy) (M : flex.Marshal)
    (conn : Conn) (state plan : Decoded) (hun : unchanged plan.data state.data = true) :
    (state.data.SchedulingPolicyARN.IsNull = true →
      ∃ resp, r.Update P M conn state plan = .ok (resp, conn)) ∧
    (state.data.SchedulingPolicyARN.IsNull = false →
      diag.HasError (state.diags ++ plan.diags) = false →
      ∀ resp conn', r.Update P M conn state plan = .ok (resp, conn') →
        ∃ n, conn'.calls = conn.calls ++
          .UpdateJobQueue (policyOnlyInput plan.data state.data) ::
            List.replicate n (.DescribeJobQueues (describeOpts (ValueString plan.data.ID)))) := by
  have hin := updateInput_unchanged M plan.data state.data hun
  constructor
  · intro hnull
    simp only [hnull, if_true] at hin
    unfold resourceJobQueue.Update
    by_cases hd : diag.HasError (state.diags ++ plan.diags) = true
    · exact ⟨{ Diagnostics := state.diags ++ plan.diags, State := none },
        by simp only [hd, if_true]⟩
    · exact ⟨{ Diagnostics := state.diags ++ plan.diags, State := some plan.data },
        by simp only [hd, hin]; rfl⟩
  · intro hnull hd resp conn' hrun
    simp [hnull] at hin
    unfold resourceJobQueue.Update at hrun
    simp only [hd, hin] at hrun
    cases hu : conn.updateJobQueue with
    | nil => simp [Conn.UpdateJobQueueWithContext, hu] at hrun
    | cons u us =>
      cases u with
      | some err =>
        simp [Conn.UpdateJobQueueWithContext, hu] at hrun
        exact ⟨0, by rw [← hrun.2]; simp⟩
      | none =>
        simp only [Conn.UpdateJobQueueWithContext, hu] at hrun
        cases hw : WaitForStateContext P
            (waitJobQueueUpdatedConf (r.UpdateTimeout plan.data.Timeouts))
            (jobQueueRefreshStatusFunc (ValueString plan.data.ID))
            { conn with
              updateJobQueue := us
              calls := conn.calls ++
                [.UpdateJobQueue (policyOnlyInput plan.data state.data)] } with
        | panic => simp [waitJobQueueUpdated, hw] at hrun
        | exhausted => simp [waitJobQueueUpdated, hw] at hrun
        | ok z =>
          rcases z with ⟨raw, conn2⟩
          obtain ⟨n, _, hc2⟩ := WaitForStateContext_calls P _ _ _ conn2 _ hw
          have hfin : conn' = conn2 := by
            simp only [waitJobQueueUpdated, hw] at hrun
            cases hx : assertJobQueueDetail raw with
            | mk a b =>
              cases b with
              | some e2 =>
                simp [hx] at hrun
                exact hrun.2.symm
              | none =>
                cases a with
                | none => simp [hx] at hrun
                | some out =>
                  simp [hx] at hrun
                  exact hrun.2.symm
          refine ⟨n, ?_⟩
          rw [hfin, hc2]
          simp [Conn.afterProbes]

/-- C9 amended, at the sample job queue with a scheduling policy. -/
theorem Update_unchanged_calls_witness :
    unchanged policyData policyData = true ∧
      ∃ n, (sampleConn [] [] []).calls ++
          [.UpdateJobQueue (policyOnlyInput policyData policyData),
            .DescribeJobQueues (describeOpts (ValueString policyData.ID))] =
        (sampleConn [none] [] [sampleProbe JQStatusValid]).calls ++
          .UpdateJobQueue (policyOnlyInput policyData policyData) ::
            List.replicate n (.DescribeJobQueues (describeOpts (ValueString policyData.ID))) :=
  ⟨by decide,
    (Update_unchanged_calls newResourceJobQueue WaitPolicy.strict flex.Marshal.plain
      (sampleConn [none] [] [sampleProbe JQStatusValid])
      { data := policyData, diags := [] } { data := policyData, diags := [] }
      (by decide)).2 (by decide) (by decide)
      { Diagnostics := [],
        State := some (policyData.refreshFromOutput flex.Marshal.plain
          (sampleQueue JQStatusValid)).1 }
      { sampleConn [] [] [] with
        calls := [.UpdateJobQueue (policyOnlyInput policyData policyData),
          .DescribeJobQueues (describeOpts (ValueString policyData.ID))] }
      (by decide)⟩

end batch

namespace batch

open retry basetypes

/-- C10, at a concrete input: plan and prior state are the same job queue
without a scheduling policy, the remote queue is `INVALID`, and `Update`
reports success, the plan written as state, without having made any probe. -/
theorem Update_unchanged_makes_no_probe :
    unchanged sampleData sampleData = true ∧
      newResourceJobQueue.Update WaitPolicy.strict flex.Marshal.plain
        (sampleConn [none] [] [sampleProbe JQStatusInvalid])
        { data := sampleData, diags := [] } { data := sampleData, diags := [] } =
      .ok ({ Diagnostics := [], State := some sampleData },
        sampleConn [none] [] [sampleProbe JQStatusInvalid]) := by
  decide

/-- C10, amended: when no mutable field differs between plan and prior state
and both decode, `Update` checks the remote status only if the prior state has
a scheduling policy ARN. With a null ARN it makes no remote call, hence no
probe, and writes the plan as the new state. With an ARN that is not null,
every run that reports success has sent `UpdateJobQueue` and then probed until
a probe found the job queue with status `VALID`; the state it writes is the
plan refreshed from that observation. -/
theorem Update_unchanged_drift_guard (r : resourceJobQueue) (P : WaitPolicy) (M : flex.Marshal)
    (conn : Conn) (state plan : Decoded) (hun : unchanged plan.data state.data = true)
    (hd : diag.HasError (state.diags ++ plan.diags) = false) :
    (state.data.SchedulingPolicyARN.IsNull = true →
      r.Update P M conn state plan =
        .ok ({ Diagnostics := state.diags ++ plan.diags, State := some plan.data }, conn)) ∧
    (state.data.SchedulingPolicyARN.IsNull = false →
      ∀ resp conn', r.Update P M conn state plan = .ok (resp, conn') →
        diag.HasError resp.Diagnostics = false →
        ∃ us n p q, conn.updateJobQueue = none :: us ∧ 0 < n ∧
          conn.describeJobQueues[n - 1]? = some p ∧ p.finds q ∧
          q.Status = some JQStatusValid ∧
          resp.State = some (plan.data.refreshFromOutput M q).1 ∧
          conn'.describeJobQueues = conn.describeJobQueues.drop n ∧
          conn'.calls = conn.calls ++
            .UpdateJobQueue (policyOnlyInput plan.data state.data) ::
              List.replicate n (.DescribeJobQueues (describeOpts (ValueString plan.data.ID)))) := by
  have hin := updateInput_unchanged M plan.data state.data hun
  constructor
  · intro hnull
    simp only [hnull, if_true] at hin
    unfold resourceJobQueue.Update
    simp only [hd, hin]
    rfl
  · intro hnull resp conn' hrun hok
    simp [hnull] at hin
    unfold resourceJobQueue.Update at hrun
    simp only [hd, hin] at hrun
    cases hu : conn.updateJobQueue with
    | nil => simp [Conn.UpdateJobQueueWithContext, hu] at hrun
    | cons u us =>
      cases u with
      | some err =>
        simp [Conn.UpdateJobQueueWithContext, hu] at hrun
        rw [← hrun.1] at hok
        simp [diag.HasError, diag.AddError] at hok
      | none =>
        simp only [Conn.UpdateJobQueueWithContext, hu] at hrun
        cases hw : WaitForStateContext P
            (waitJobQueueUpdatedConf (r.UpdateTimeout plan.data.Timeouts))
            (jobQueueRefreshStatusFunc (ValueString plan.data.ID))
            { conn with
              updateJobQueue := us
              calls := conn.calls ++
                [.UpdateJobQueue (policyOnlyInput plan.data state.data)] } with
        | panic => simp [waitJobQueueUpdated, hw] at hrun
        | exhausted => simp [waitJobQueueUpdated, hw] at hrun
        | ok z =>
          rcases z with ⟨raw, conn2⟩
          simp only [waitJobQueueUpdated, hw] at hrun
          cases hx : assertJobQueueDetail raw with
          | mk a b =>
            cases b with
            | some e2 =>
              simp [hx] at hrun
              rw [← hrun.1] at hok
              simp [diag.HasError, diag.AddError] at hok
            | none =>
              cases a with
              | none => simp [hx] at hrun
              | some out =>
                simp [hx] at hrun
                obtain ⟨hresp, hconn⟩ := hrun
                have hraw := assertJobQueueDetail_some raw out none hx
                rw [hraw] at hw
                obtain ⟨n, p, s, hpos, hp, hfinds, hs, hmem, hc2⟩ :=
                  WaitForStateContext_success P _ _ _ conn2 out hw
                have hs' : s = JQStatusValid := by
                  simpa [waitJobQueueUpdatedConf] using hmem
                subst hs'
                refine ⟨us, n, p, out, rfl, hpos, hp, hfinds, hs, ?_, ?_, ?_⟩
                · rw [← hresp]
                · rw [← hconn, hc2]
                  rfl
                · rw [← hconn, hc2]
                  simp [Conn.afterProbes]

/-- C10 amended, at the sample job queue with a scheduling policy: the update
is sent and the one probe made finds the queue `VALID`. -/
theorem Update_unchanged_drift_guard_witness :
    unchanged policyData policyData = true ∧
      ∃ us n p q, (sampleConn [none] [] [sampleProbe JQStatusValid]).updateJobQueue = none :: us ∧
        0 < n ∧
        (sampleConn [none] [] [sampleProbe JQStatusValid]).describeJobQueues[n - 1]? = some p ∧
        p.finds q ∧ q.Status = some JQStatusValid ∧
        some (policyData.refreshFromOutput flex.Marshal.plain (sampleQueue JQStatusValid)).1 =
          some (policyData.refreshFromOutput flex.Marshal.plain q).1 ∧
        ([] : List Probe) =
          (sampleConn [none] [] [sampleProbe JQStatusValid]).describeJobQueues.drop n ∧
        [.UpdateJobQueue (policyOnlyInput policyData policyData),
            .DescribeJobQueues (describeOpts (ValueString policyData.ID))] =
          (sampleConn [none] [] [sampleProbe JQStatusValid]).calls ++
            .UpdateJobQueue (policyOnlyInput policyData policyData) ::
              List.replicate n (.DescribeJobQueues (describeOpts (ValueString policyData.ID))) :=
  ⟨by decide,
    (Update_unchanged_drift_guard newResourceJobQueue WaitPolicy.strict flex.Marshal.plain
      (sampleConn [none] [] [sampleProbe JQStatusValid])
      { data := policyData, diags := [] } { data := policyData, diags := [] }
      (by decide) (by decide)).2 (by decide)
      { Diagnostics := [],
        State := some (policyData.refreshFromOutput flex.Marshal.plain
          (sampleQueue JQStatusValid)).1 }
      { sampleConn [] [] [] with
        calls := [.UpdateJobQueue (policyOnlyInput policyData policyData),
          .DescribeJobQueues (describeOpts (ValueString policyData.ID))] }
      (by decide) (by decide)⟩

end batch

/-! ## Create: one mutation, then probes -/

namespace batch

open retry basetypes

/-- How a `Create` whose plan decodes returns: after a refused `CreateJobQueue`
with that one call made, or after an accepted one with probes for the plan's
name behind it, and then any state written carries the returned ARN as ID. -/
theorem Create_trace (r : resourceJobQueue) (P : WaitPolicy)
    (M : flex.Marshal) (conn conn' : Conn) (tagsIn : List (String × String)) (plan : Decoded)
    (resp : Response) (hd : diag.HasError plan.diags = false)
    (h : r.Create P M conn tagsIn plan = .ok (resp, conn')) :
    (∃ e rest, conn.createJobQueue = .err e :: rest ∧ conn'.createJobQueue = rest ∧
      conn'.calls = conn.calls ++ [.CreateJobQueue (createInput M tagsIn plan.data)]) ∨
    (∃ out rest n, conn.createJobQueue = .ok out :: rest ∧ conn'.createJobQueue = rest ∧
      0 < n ∧
      conn'.calls = conn.calls ++ .CreateJobQueue (createInput M tagsIn plan.data) ::
        List.replicate n (.DescribeJobQueues (describeOpts (ValueString plan.data.Name))) ∧
      ∀ st, resp.State = some st → st.ID = flex.StringToFramework out.JobQueueArn) := by
  unfold resourceJobQueue.Create at h
  simp only [hd] at h
  cases hc : conn.createJobQueue with
  | nil => simp [Conn.CreateJobQueueWithContext, hc] at h
  | cons c rest =>
    cases c with
    | err e =>
      simp [Conn.CreateJobQueueWithContext, hc] at h
      left
      refine ⟨e, rest, rfl, ?_, ?_⟩
      · rw [← h.2]
      · rw [← h.2]
    | ok out =>
      simp only [Conn.CreateJobQueueWithContext, hc] at h
      right
      cases hw : WaitForStateContext P
          (waitJobQueueCreatedConf (r.CreateTimeout plan.data.Timeouts))
          (jobQueueRefreshStatusFunc (ValueString plan.data.Name))
          { conn with
            createJobQueue := rest
            calls := conn.calls ++ [.CreateJobQueue (createInput M tagsIn plan.data)] } with
      | panic => simp [waitJobQueueCreated, hw] at h
      | exhausted => simp [waitJobQueueCreated, hw] at h
      | ok z =>
        rcases z with ⟨raw, conn2⟩
        obtain ⟨n, hpos, hc2⟩ := WaitForStateContext_calls P _ _ _ conn2 _ hw
        have hfin : conn' = conn2 ∧
            ∀ st, resp.State = some st → st.ID = flex.StringToFramework out.JobQueueArn := by
          simp only [waitJobQueueCreated, hw] at h
          cases hx : assertJobQueueDetail raw with
          | mk a b =>
            cases b with
            | some e2 =>
              simp [hx] at h
              refine ⟨h.2.symm, ?_⟩
              intro st hst
              rw [← h.1] at hst
              simp at hst
            | none =>
              cases a with
              | none => simp [hx] at h
              | some o =>
                simp [hx] at h
                refine ⟨h.2.symm, ?_⟩
                intro st hst
                rw [← h.1] at hst
                simp at hst
                rw [← hst]
                rfl
        refine ⟨out, rest, n, rfl, ?_, hpos, ?_, hfin.2⟩
        · rw [hfin.1, hc2]
          rfl
        · rw [hfin.1, hc2]
          simp [Conn.afterProbes]

/-- C11: in every run of `resourceJobQueue.Create` that returns and whose plan
decodes without error, `CreateJobQueue` is called exactly once, first, and only
its one reply is consumed. When it fails the remote calls of the run are that
single call, with no probe; when it succeeds every later call is a
`DescribeJobQueues` probe. -/
theorem Create_calls_once_before_probes (r : resourceJobQueue) (P : WaitPolicy)
    (M : flex.Marshal) (conn conn' : Conn) (tagsIn : List (String × String)) (plan : Decoded)
    (resp : Response) (hd : diag.HasError plan.diags = false)
    (h : r.Create P M conn tagsIn plan = .ok (resp, conn')) :
    (∃ e rest, conn.createJobQueue = .err e :: rest ∧ conn'.createJobQueue = rest ∧
      conn'.calls = conn.calls ++ [.CreateJobQueue (createInput M tagsIn plan.data)]) ∨
    (∃ out rest n, conn.createJobQueue = .ok out :: rest ∧ conn'.createJobQueue = rest ∧
      0 < n ∧
      conn'.calls = conn.calls ++ .CreateJobQueue (createInput M tagsIn plan.data) ::
        List.replicate n (.DescribeJobQueues (describeOpts (ValueString plan.data.Name)))) := by
  rcases Create_trace r P M conn conn' tagsIn plan resp hd h with
    ⟨e, rest, h1, h2, h3⟩ | ⟨out, rest, n, h1, h2, h3, h4, _⟩
  · exact Or.inl ⟨e, rest, h1, h2, h3⟩
  · exact Or.inr ⟨out, rest, n, h1, h2, h3, h4⟩

/-- C11 on a create that goes through: one `CreateJobQueue`, then two probes. -/
theorem Create_calls_once_before_probes_witness :
    newResourceJobQueue.Create WaitPolicy.strict flex.Marshal.plain createScript []
        { data := samplePlan, diags := [] } = .ok (createScriptResponse, createScriptDone) ∧
      ((∃ e rest, createScript.createJobQueue = .err e :: rest ∧
          createScriptDone.createJobQueue = rest ∧
          createScriptDone.calls = createScript.calls ++
            [.CreateJobQueue (createInput flex.Marshal.plain [] samplePlan)]) ∨
        (∃ out rest n, createScript.createJobQueue = .ok out :: rest ∧
          createScriptDone.createJobQueue = rest ∧ 0 < n ∧
          createScriptDone.calls = createScript.calls ++
            .CreateJobQueue (createInput flex.Marshal.plain [] samplePlan) ::
              List.replicate n (.DescribeJobQueues (describeOpts (ValueString samplePlan.Name))))) :=
  ⟨by decide,
    Create_calls_once_before_probes newResourceJobQueue WaitPolicy.strict flex.Marshal.plain
      createScript createScriptDone [] { data := samplePlan, diags := [] } createScriptResponse
      (by decide) (by decide)⟩

end batch

namespace batch

open retry basetypes

/-- C19, at a concrete input: `CreateJobQueue` returns the ARN of the new queue,
and both probes of the wait that follows ask for the queue by the plan's name
`q`; no probe asks for the returned ARN. -/
theorem Create_probes_not_keyed_by_arn :
    createScript.createJobQueue = [.ok { JobQueueArn := some sampleArn, JobQueueName := some "q" }] ∧
      newResourceJobQueue.Create WaitPolicy.strict flex.Marshal.plain createScript []
        { data := samplePlan, diags := [] } = .ok (createScriptResponse, createScriptDone) ∧
      createScriptDone.calls =
        [.CreateJobQueue (createInput flex.Marshal.plain [] samplePlan),
          .DescribeJobQueues (describeOpts "q"), .DescribeJobQueues (describeOpts "q")] ∧
      Call.DescribeJobQueues (describeOpts sampleArn) ∉ createScriptDone.calls := by
  decide

/-- C19, amended: in every run of `resourceJobQueue.Create` that returns after
a successful `CreateJobQueue`, the probes of the wait are keyed by the name in
the plan, not by the identifier the call returned; the returned ARN is the ID
of whatever state the run writes. -/
theorem Create_wait_by_name_id_from_arn (r : resourceJobQueue) (P : WaitPolicy)
    (M : flex.Marshal) (conn conn' : Conn) (tagsIn : List (String × String)) (plan : Decoded)
    (resp : Response) (out : CreateJobQueueOutput) (rest : List (Reply CreateJobQueueOutput))
    (hd : diag.HasError plan.diags = false)
    (hc : conn.createJobQueue = .ok out :: rest)
    (h : r.Create P M conn tagsIn plan = .ok (resp, conn')) :
    (∃ n, 0 < n ∧
      conn'.calls = conn.calls ++ .CreateJobQueue (createInput M tagsIn plan.data) ::
        List.replicate n (.DescribeJobQueues (describeOpts (ValueString plan.data.Name)))) ∧
    ∀ st, resp.State = some st → st.ID = flex.StringToFramework out.JobQueueArn := by
  rcases Create_trace r P M conn conn' tagsIn plan resp hd h with
    ⟨e, rest1, h1, _, _⟩ | ⟨out1, rest1, n, h1, _, h3, h4, h5⟩
  · rw [hc] at h1
    simp at h1
  · rw [hc] at h1
    simp at h1
    obtain ⟨ho, _⟩ := h1
    subst ho
    exact ⟨⟨n, h3, h4⟩, h5⟩

/-- C19 amended, on the create that goes through: two probes for `q`, and the
state written has the returned ARN as ID. -/
theorem Create_wait_by_name_id_from_arn_witness :
    (∃ n, 0 < n ∧
      createScriptDone.calls = createScript.calls ++
        .CreateJobQueue (createInput flex.Marshal.plain [] samplePlan) ::
          List.replicate n (.DescribeJobQueues (describeOpts "q"))) ∧
    ∀ st, createScriptResponse.State = some st → st.ID = .known sampleArn :=
  Create_wait_by_name_id_from_arn newResourceJobQueue WaitPolicy.strict flex.Marshal.plain
    createScript createScriptDone [] { data := samplePlan, diags := [] } createScriptResponse
    { JobQueueArn := some sampleArn, JobQueueName := some "q" } [] (by decide) rfl (by decide)

end batch

/-! ## Update: the request and its fields -/

namespace batch

open retry basetypes

/-- The guard in front of the refusal in `Update` holds for every value: a
value cannot be null and unknown at once. -/
theorem not_null_or_not_unknown (v : fwtypes.ARN) :
    v.IsNull = false ∨ v.IsUnknown = false := by
  cases v <;> simp [Value.IsNull, Value.IsUnknown]

/-- The refusal "cannot remove the fair share scheduling policy" is never
returned by the request builder of `Update`. -/
theorem updateInput_never_refuses (M : flex.Marshal) (plan state : resourceJobQueueData)
    (e : diag.Summary × String) : updateInput M plan state ≠ .error e := by
  intro h
  have hg := not_null_or_not_unknown plan.SchedulingPolicyARN
  unfold updateInput at h
  simp only [] at h
  split_ifs at h

/-- C12, the code at the failing input: the prior state has a scheduling
policy, the plan's is null. `Update` does not fail: it sends `UpdateJobQueue`
with no scheduling policy, waits, and reports no error. For no plan and state
at all does the request builder return the refusal. -/
theorem Update_removing_policy_sends_update :
    policyData.SchedulingPolicyARN.IsNull = false ∧
      sampleData.SchedulingPolicyARN.IsNull = true ∧
      newResourceJobQueue.Update WaitPolicy.strict flex.Marshal.plain
        (sampleConn [none] [] [sampleProbe JQStatusValid])
        { data := policyData, diags := [] } { data := sampleData, diags := [] } =
      .ok ({ Diagnostics := [],
             State := some (sampleData.refreshFromOutput flex.Marshal.plain
               (sampleQueue JQStatusValid)).1 },
        { sampleConn [] [] [] with
          calls :=
            [.UpdateJobQueue
              { JobQueue := some "q", ComputeEnvironmentOrder := [], Priority := none,
                State := none, SchedulingPolicyArn := none },
             .DescribeJobQueues (describeOpts (ValueString sampleData.ID))] }) ∧
      ∀ (M : flex.Marshal) (plan state : resourceJobQueueData) (e : diag.Summary × String),
        updateInput M plan state ≠ .error e :=
  ⟨by decide, by decide, by decide, updateInput_never_refuses⟩

end batch

namespace batch

open retry basetypes

/-- The request `Update` builds, field by field: each of the three diffed
fields carries the plan's value when plan and state differ and stays unset
otherwise; the scheduling policy is the plan's when it differs and the prior
state's otherwise. -/
theorem updateInput_fields (M : flex.Marshal) (plan state : resourceJobQueueData) :
    ∃ update input, updateInput M plan state = .ok (update, input) ∧
      input.JobQueue = flex.StringFromFramework plan.Name ∧
      input.ComputeEnvironmentOrder =
        (if plan.ComputeEnvironments.Equal state.ComputeEnvironments = false then
          expandComputeEnvironmentOrder (M.ExpandFrameworkStringValueList plan.ComputeEnvironments)
        else []) ∧
      input.Priority =
        (if plan.Priority.Equal state.Priority = false then M.Int64FromFramework plan.Priority
        else none) ∧
      input.State =
        (if plan.State.Equal state.State = false then flex.StringFromFramework plan.State
        else none) ∧
      input.SchedulingPolicyArn =
        (if plan.SchedulingPolicyARN.Equal state.SchedulingPolicyARN = false then
          flex.StringFromFramework plan.SchedulingPolicyARN
        else if state.SchedulingPolicyARN.IsNull = false then
          flex.StringFromFramework state.SchedulingPolicyARN
        else none) := by
  have hg := not_null_or_not_unknown plan.SchedulingPolicyARN
  unfold updateInput
  cases h1 : plan.ComputeEnvironments.Equal state.ComputeEnvironments <;>
    cases h2 : plan.Priority.Equal state.Priority <;>
    cases h3 : plan.State.Equal state.State <;>
    cases h4 : state.SchedulingPolicyARN.IsNull <;>
    cases h5 : plan.SchedulingPolicyARN.Equal state.SchedulingPolicyARN <;>
    simp [hg]

/-- The calls of an `Update` that returns: none, or the one request it built
followed by probes for the ID in the plan. -/
theorem Update_trace (r : resourceJobQueue) (P : WaitPolicy) (M : flex.Marshal)
    (conn conn' : Conn) (state plan : Decoded) (resp : Response)
    (h : r.Update P M conn state plan = .ok (resp, conn')) :
    conn'.calls = conn.calls ∨
    ∃ input n, updateInput M plan.data state.data = .ok (true, input) ∧
      conn'.calls = conn.calls ++ .UpdateJobQueue input ::
        List.replicate n (.DescribeJobQueues (describeOpts (ValueString plan.data.ID))) := by
  unfold resourceJobQueue.Update at h
  by_cases hd : diag.HasError (state.diags ++ plan.diags) = true
  · simp [hd] at h
    left
    rw [h.2]
  · simp only [hd] at h
    cases hin : updateInput M plan.data state.data with
    | error e =>
      simp [hin] at h
      left
      rw [h.2]
    | ok x =>
      rcases x with ⟨u, input⟩
      cases u with
      | false =>
        simp [hin] at h
        left
        rw [h.2]
      | true =>
        simp only [hin] at h
        right
        cases hu : conn.updateJobQueue with
        | nil => simp [Conn.UpdateJobQueueWithContext, hu] at h
        | cons u us =>
          cases u with
          | some err =>
            simp [Conn.UpdateJobQueueWithContext, hu] at h
            exact ⟨input, 0, rfl, by rw [← h.2]; simp⟩
          | none =>
            simp only [Conn.UpdateJobQueueWithContext, hu] at h
            cases hw : WaitForStateContext P
                (waitJobQueueUpdatedConf (r.UpdateTimeout plan.data.Timeouts))
                (jobQueueRefreshStatusFunc (ValueString plan.data.ID))
                { conn with
                  updateJobQueue := us
                  calls := conn.calls ++ [.UpdateJobQueue input] } with
            | panic => simp [waitJobQueueUpdated, hw] at h
            | exhausted => simp [waitJobQueueUpdated, hw] at h
            | ok z =>
              rcases z with ⟨raw, conn2⟩
              obtain ⟨n, _, hc2⟩ := WaitForStateContext_calls P _ _ _ conn2 _ hw
              have hfin : conn' = conn2 := by
                simp only [waitJobQueueUpdated, hw] at h
                cases hx : assertJobQueueDetail raw with
                | mk a b =>
                  cases b with
                  | some e2 =>
                    simp [hx] at h
                    exact h.2.symm
                  | none =>
                    cases a with
                    | none => simp [hx] at h
                    | some out =>
                      simp [hx] at h
                      exact h.2.symm
              refine ⟨input, n, rfl, ?_⟩
              rw [hfin, hc2]
              simp [Conn.afterProbes]

end batch

namespace batch

open retry basetypes

/-- C18, at two concrete inputs. First: the plan empties the list of compute
environments, so plan and state differ there, and the one request sent leaves
`ComputeEnvironmentOrder` unset. Second: only the priority differs, and the
request sent also carries the scheduling policy ARN, which does not differ. -/
theorem Update_request_not_just_the_differences :
    (emptiedPlan.ComputeEnvironments.Equal sampleData.ComputeEnvironments = false ∧
      callsOf (newResourceJobQueue.Update WaitPolicy.strict flex.Marshal.plain
        (sampleConn [none] [] [sampleProbe JQStatusValid])
        { data := sampleData, diags := [] } { data := emptiedPlan, diags := [] }) =
      some [.UpdateJobQueue
          { JobQueue := some "q", ComputeEnvironmentOrder := [], Priority := none,
            State := none, SchedulingPolicyArn := none },
        .DescribeJobQueues (describeOpts (ValueString sampleData.ID))]) ∧
    (raisedPlan.SchedulingPolicyARN.Equal policyData.SchedulingPolicyARN = true ∧
      callsOf (newResourceJobQueue.Update WaitPolicy.strict flex.Marshal.plain
        (sampleConn [none] [] [sampleProbe JQStatusValid])
        { data := policyData, diags := [] } { data := raisedPlan, diags := [] }) =
      some [.UpdateJobQueue
          { JobQueue := some "q", ComputeEnvironmentOrder := [], Priority := some 2,
            State := none,
            SchedulingPolicyArn := some "arn:aws:batch:us-east-1:123456789012:scheduling-policy/sp" },
        .DescribeJobQueues (describeOpts (ValueString policyData.ID))]) := by
  decide

/-- C18, amended: every run of `resourceJobQueue.Update` that returns has
issued at most one `UpdateJobQueue` call, followed by probes only. In the
request, `ComputeEnvironmentOrder`, `Priority` and `State` are each unset when
the plan and the state agree on them and carry the plan's value when they
differ, which leaves `ComputeEnvironmentOrder` unset as well when the plan's
list expands to nothing. Besides the differing fields the request carries the
scheduling policy ARN of the prior state whenever the plan's ARN equals it and
it is not null; when the plan's ARN is known and differs, the request carries
the plan's ARN. -/
theorem Update_at_most_one_call_plan_values (r : resourceJobQueue) (P : WaitPolicy)
    (M : flex.Marshal) (conn conn' : Conn) (state plan : Decoded) (resp : Response)
    (h : r.Update P M conn state plan = .ok (resp, conn')) :
    conn'.calls = conn.calls ∨
    ∃ input n,
      conn'.calls = conn.calls ++ .UpdateJobQueue input ::
        List.replicate n (.DescribeJobQueues (describeOpts (ValueString plan.data.ID))) ∧
      input.ComputeEnvironmentOrder =
        (if plan.data.ComputeEnvironments.Equal state.data.ComputeEnvironments = false then
          expandComputeEnvironmentOrder
            (M.ExpandFrameworkStringValueList plan.data.ComputeEnvironments)
        else []) ∧
      input.Priority =
        (if plan.data.Priority.Equal state.data.Priority = false then
          M.Int64FromFramework plan.data.Priority
        else none) ∧
      input.State =
        (if plan.data.State.Equal state.data.State = false then
          flex.StringFromFramework plan.data.State
        else none) ∧
      (plan.data.SchedulingPolicyARN.Equal state.data.SchedulingPolicyARN = true →
        input.SchedulingPolicyArn =
          (if state.data.SchedulingPolicyARN.IsNull = false then
            flex.StringFromFramework state.data.SchedulingPolicyARN
          else none)) ∧
      (∀ s : String, plan.data.SchedulingPolicyARN = .known s →
        plan.data.SchedulingPolicyARN.Equal state.data.SchedulingPolicyARN = false →
        input.SchedulingPolicyArn = some s) := by
  rcases Update_trace r P M conn conn' state plan resp h with h0 | ⟨input, n, hin, hcalls⟩
  · exact Or.inl h0
  · obtain ⟨u, input', hin', _, hce, hpr, hst, hsp⟩ :=
      updateInput_fields M plan.data state.data
    rw [hin] at hin'
    simp at hin'
    obtain ⟨_, hi⟩ := hin'
    subst hi
    refine Or.inr ⟨input, n, hcalls, hce, hpr, hst, ?_, ?_⟩
    · intro heq
      rw [hsp]
      simp [heq]
    · intro s hs hne
      rw [hsp, hs] at *
      simp [hne, flex.StringFromFramework]

/-- C18 amended, on the update that raises the priority of the sample queue:
one call, which carries the new priority and the unchanged scheduling policy. -/
theorem Update_at_most_one_call_plan_values_witness :
    newResourceJobQueue.Update WaitPolicy.strict flex.Marshal.plain
        (sampleConn [none] [] [sampleProbe JQStatusValid])
        { data := policyData, diags := [] } { data := raisedPlan, diags := [] } =
      .ok ({ Diagnostics := [],
             State := some (raisedPlan.refreshFromOutput flex.Marshal.plain
               (sampleQueue JQStatusValid)).1 },
        { sampleConn [] [] [] with
          calls :=
            [.UpdateJobQueue
              { JobQueue := some "q", ComputeEnvironmentOrder := [], Priority := some 2,
                State := none,
                SchedulingPolicyArn :=
                  some "arn:aws:batch:us-east-1:123456789012:scheduling-policy/sp" },
             .DescribeJobQueues (describeOpts (ValueString raisedPlan.ID))] }) ∧
      ((sampleConn [] [] []).calls ++
          [.UpdateJobQueue
              { JobQueue := some "q", ComputeEnvironmentOrder := [], Priority := some 2,
                State := none,
                SchedulingPolicyArn :=
                  some "arn:aws:batch:us-east-1:123456789012:scheduling-policy/sp" },
            .DescribeJobQueues (describeOpts (ValueString raisedPlan.ID))] =
          (sampleConn [none] [] [sampleProbe JQStatusValid]).calls ∨
        ∃ input n,
          (sampleConn [] [] []).calls ++
            [.UpdateJobQueue
                { JobQueue := some "q", ComputeEnvironmentOrder := [], Priority := some 2,
                  State := none,
                  SchedulingPolicyArn :=
                    some "arn:aws:batch:us-east-1:123456789012:scheduling-policy/sp" },
              .DescribeJobQueues (describeOpts (ValueString raisedPlan.ID))] =
            (sampleConn [none] [] [sampleProbe JQStatusValid]).calls ++
              .UpdateJobQueue input ::
                List.replicate n (.DescribeJobQueues (describeOpts (ValueString raisedPlan.ID))) ∧
          input.ComputeEnvironmentOrder = [] ∧ input.Priority = some 2 ∧ input.State = none ∧
          (raisedPlan.SchedulingPolicyARN.Equal policyData.SchedulingPolicyARN = true →
            input.SchedulingPolicyArn =
              some "arn:aws:batch:us-east-1:123456789012:scheduling-policy/sp") ∧
          (∀ s : String, raisedPlan.SchedulingPolicyARN = .known s →
            raisedPlan.SchedulingPolicyARN.Equal policyData.SchedulingPolicyARN = false →
            input.SchedulingPolicyArn = some s)) :=
  ⟨by decide,
    Update_at_most_one_call_plan_values newResourceJobQueue WaitPolicy.strict
      flex.Marshal.plain (sampleConn [none] [] [sampleProbe JQStatusValid])
      { sampleConn [] [] [] with
        calls :=
          [.UpdateJobQueue
            { JobQueue := some "q", ComputeEnvironmentOrder := [], Priority := some 2,
              State := none,
              SchedulingPolicyArn :=
                some "arn:aws:batch:us-east-1:123456789012:scheduling-policy/sp" },
           .DescribeJobQueues (describeOpts (ValueString raisedPlan.ID))] }
      { data := policyData, diags := [] } { data := raisedPlan, diags := [] }
      { Diagnostics := [],
        State := some (raisedPlan.refreshFromOutput flex.Marshal.plain
          (sampleQueue JQStatusValid)).1 }
      (by decide)⟩

end batch

/-! ## Compute environment order: expand and flatten -/

namespace batch

theorem expandFrom_order_ge (xs : List String) :
    ∀ (i : Nat) (a : ComputeEnvironmentOrder), a ∈ expandComputeEnvironmentOrderFrom i xs →
      (i : Int) ≤ flex.ToInt64 a.Order := by
  induction xs with
  | nil =>
    intro i a ha
    simp [expandComputeEnvironmentOrderFrom] at ha
  | cons x rest ih =>
    intro i a ha
    simp only [expandComputeEnvironmentOrderFrom, List.mem_cons] at ha
    rcases ha with rfl | ha
    · simp [flex.ToInt64]
    · have := ih (i + 1) a ha
      push_cast at this
      omega

theorem expandFrom_sorted (xs : List String) :
    ∀ i : Nat, List.Sorted (fun a b => flex.ToInt64 a.Order ≤ flex.ToInt64 b.Order)
      (expandComputeEnvironmentOrderFrom i xs) := by
  induction xs with
  | nil =>
    intro i
    simp [expandComputeEnvironmentOrderFrom]
  | cons x rest ih =>
    intro i
    simp only [expandComputeEnvironmentOrderFrom, List.sorted_cons]
    refine ⟨?_, ih (i + 1)⟩
    intro b hb
    have := expandFrom_order_ge rest (i + 1) b hb
    simp only [flex.ToInt64, Option.getD_some]
    push_cast at this
    simp only [flex.ToInt64] at this
    omega

theorem expandFrom_names (xs : List String) :
    ∀ i : Nat, (expandComputeEnvironmentOrderFrom i xs).map
      (fun v => flex.ToString v.ComputeEnvironment) = xs := by
  induction xs with
  | nil =>
    intro i
    rfl
  | cons x rest ih =>
    intro i
    simp only [expandComputeEnvironmentOrderFrom, List.map_cons, ih (i + 1)]
    rfl

theorem expandFrom_getElem? (xs : List String) :
    ∀ (i k : Nat), (expandComputeEnvironmentOrderFrom i xs)[k]? =
      (xs[k]?).map (fun env => { Order := some ((i + k : Nat) : Int), ComputeEnvironment := some env }) := by
  induction xs with
  | nil =>
    intro i k
    simp [expandComputeEnvironmentOrderFrom]
  | cons x rest ih =>
    intro i k
    cases k with
    | zero => simp [expandComputeEnvironmentOrderFrom]
    | succ k =>
      simp only [expandComputeEnvironmentOrderFrom, List.getElem?_cons_succ, ih (i + 1) k]
      have : i + 1 + k = i + (k + 1) := by omega
      rw [this]

/-- C20: round trip. For every list of strings `xs`,
`expandComputeEnvironmentOrder xs` has at index `k` the element with
`Order = k` and `ComputeEnvironment = xs[k]`, and flattening it gives back
`xs`: same elements, same order, same length. -/
theorem flatten_expand_round_trip (xs : List String) :
    flattenComputeEnvironmentOrder (expandComputeEnvironmentOrder xs) = xs ∧
      (expandComputeEnvironmentOrder xs).length = xs.length ∧
      ∀ k : Nat, (expandComputeEnvironmentOrder xs)[k]? =
        (xs[k]?).map (fun env => { Order := some (k : Int), ComputeEnvironment := some env }) := by
  refine ⟨?_, ?_, ?_⟩
  · unfold flattenComputeEnvironmentOrder expandComputeEnvironmentOrder
    rw [List.Sorted.insertionSort_eq (expandFrom_sorted xs 0)]
    exact expandFrom_names xs 0
  · have h := congrArg List.length (expandFrom_names xs 0)
    simpa [expandComputeEnvironmentOrder] using h
  · intro k
    have h := expandFrom_getElem? xs 0 k
    simpa [expandComputeEnvironmentOrder] using h

end batch

/-! ## The name validator -/

namespace regexp

theorem inRanges_alnum (c : Char) :
    inRanges [('0', '9'), ('A', 'Z'), ('a', 'z')] c = c.isAlphanum := by
  simp only [inRanges, List.any_cons, List.any_nil, Bool.or_false, Char.isAlphanum, Char.isAlpha,
    Char.isUpper, Char.isLower, Char.isDigit]
  simp only [Char.le_def, GE.ge, UInt32.le_def]
  rw [Bool.eq_iff_iff]
  simp only [Bool.or_eq_true, Bool.and_eq_true, decide_eq_true_eq]
  have h0 : ('0' : Char).val.toBitVec = UInt32.toBitVec 48 := rfl
  have h9 : ('9' : Char).val.toBitVec = UInt32.toBitVec 57 := rfl
  have hA : ('A' : Char).val.toBitVec = UInt32.toBitVec 65 := rfl
  have hZ : ('Z' : Char).val.toBitVec = UInt32.toBitVec 90 := rfl
  have ha : ('a' : Char).val.toBitVec = UInt32.toBitVec 97 := rfl
  have hz : ('z' : Char).val.toBitVec = UInt32.toBitVec 122 := rfl
  rw [h0, h9, hA, hZ, ha, hz]
  tauto

theorem single_range (a c : Char) : (decide (a ≤ c) && decide (c ≤ a)) = decide (c = a) := by
  rw [Bool.eq_iff_iff]
  simp only [Bool.and_eq_true, decide_eq_true_eq]
  constructor
  · rintro ⟨h1, h2⟩
    exact le_antisymm h2 h1
  · rintro rfl
    exact ⟨le_refl _, le_refl _⟩

theorem inRanges_word (c : Char) :
    inRanges [('0', '9'), ('A', 'Z'), ('a', 'z'), ('_', '_'), ('-', '-')] c =
      (c.isAlphanum || decide (c = '_') || decide (c = '-')) := by
  have h := inRanges_alnum c
  simp only [inRanges, List.any_cons, List.any_nil, Bool.or_false] at h ⊢
  rw [← h, single_range, single_range]
  simp only [Bool.or_assoc]

/-- A class repeated at most `n` times up to the end of the text matches the
inputs of at most `n` characters, all of the class. -/
theorem matchRepeat_to_end (ranges : List (Char × Char)) :
    ∀ (n : Nat) (cs : List Char),
      matchRepeat ranges (fun cs => cs.isEmpty) 0 n cs = true ↔
        cs.length ≤ n ∧ ∀ c ∈ cs, inRanges ranges c = true := by
  intro n
  induction n with
  | zero =>
    intro cs
    cases cs <;> simp [matchRepeat]
  | succ n ih =>
    intro cs
    cases cs with
    | nil => simp [matchRepeat]
    | cons c cs =>
      simp only [matchRepeat, decide_True, Bool.true_and, List.isEmpty_cons, Bool.false_or,
        Bool.and_eq_true, Nat.zero_sub, ih cs, List.length_cons, List.mem_cons, forall_eq_or_imp]
      constructor
      · rintro ⟨h1, h2, h3⟩
        exact ⟨by omega, h1, h3⟩
      · rintro ⟨h1, h2, h3⟩
        exact ⟨h2, by omega, h3⟩

/-- A class matched exactly once takes one character of the class. -/
theorem matchRepeat_once (ranges : List (Char × Char)) (k : List Char → Bool)
    (cs : List Char) :
    matchRepeat ranges k 1 1 cs = true ↔
      ∃ c rest, cs = c :: rest ∧ inRanges ranges c = true ∧ k rest = true := by
  cases cs with
  | nil => simp [matchRepeat]
  | cons c cs =>
    simp only [matchRepeat, Nat.sub_self, List.cons.injEq]
    constructor
    · intro h
      simp at h
      exact ⟨c, cs, ⟨rfl, rfl⟩, h.1, h.2⟩
    · rintro ⟨c1, rest, ⟨rfl, rfl⟩, h1, h2⟩
      simp [h1, h2]

end regexp

namespace batch

/-- C13: the name validator of `aws_batch_job_queue` accepts a string exactly
when the string is as its message describes: between 1 and 128 characters, the
first an ASCII letter or digit, every one an ASCII letter, digit, underscore or
dash. -/
theorem nameValidator_iff_described (s : String) :
    nameValidator s = true ↔ nameAsDescribed s := by
  unfold nameValidator regexp.MatchString nameRegexp nameAsDescribed
  have hlen : s.length = s.toList.length := rfl
  rw [hlen]
  generalize s.toList = cs
  simp only [regexp.matchAll]
  rw [regexp.matchRepeat_once]
  constructor
  · rintro ⟨c, rest, rfl, hc, hrest⟩
    rw [regexp.matchRepeat_to_end] at hrest
    rw [regexp.inRanges_alnum] at hc
    refine ⟨by simp, by simp; omega, ⟨c, rfl, hc⟩, ?_⟩
    intro d hd
    rcases List.mem_cons.mp hd with rfl | hd
    · simp [hc]
    · rw [← regexp.inRanges_word]
      exact hrest.2 d hd
  · rintro ⟨h1, h2, ⟨c, hhead, hc⟩, hall⟩
    cases cs with
    | nil => simp at hhead
    | cons c0 rest =>
      simp at hhead
      subst hhead
      refine ⟨c0, rest, rfl, ?_, ?_⟩
      · rw [regexp.inRanges_alnum]
        exact hc
      · rw [regexp.matchRepeat_to_end]
        refine ⟨by simp at h2; omega, ?_⟩
        intro d hd
        rw [regexp.inRanges_word]
        exact hall d (List.mem_cons_of_mem _ hd)

end batch

/-! ## Package `flex`: strings -/

namespace flex

open basetypes

/-- C14: for every string `v`, `StringValueToFramework v` is null exactly when
`v` is empty, is never unknown, and has the value `v`, so for a `v` that is not
empty it is the known String `v`; `StringValueToFrameworkLegacy v` is the known
String `v` for every `v`, never null, and the empty string stays the empty
String. -/
theorem StringValueToFramework_null_iff_empty (v : String) :
    ((StringValueToFramework v).IsNull = true ↔ v = "") ∧
      (StringValueToFramework v = .null ∨ StringValueToFramework v = .known v) ∧
      (StringValueToFramework v).IsUnknown = false ∧
      ValueString (StringValueToFramework v) = v ∧
      StringValueToFrameworkLegacy v = .known v ∧
      (StringValueToFrameworkLegacy v).IsNull = false ∧
      ValueString (StringValueToFrameworkLegacy v) = v ∧
      StringValueToFrameworkLegacy "" = .known "" := by
  unfold StringValueToFramework StringValueToFrameworkLegacy
  by_cases h : v = ""
  · subst h
    simp [Value.IsNull, Value.IsUnknown, ValueString]
  · simp [h, Value.IsNull, Value.IsUnknown, ValueString]

/-- C15: for every string pointer `p`, `StringToFrameworkLegacy p` is a known
String, neither null nor unknown: the empty String for the nil pointer and the
String with the pointed-to value otherwise. -/
theorem StringToFrameworkLegacy_known (p : Option String) :
    (StringToFrameworkLegacy p).IsNull = false ∧
      (StringToFrameworkLegacy p).IsUnknown = false ∧
      StringToFrameworkLegacy none = .known "" ∧
      (∀ s : String, StringToFrameworkLegacy (some s) = .known s) ∧
      StringToFrameworkLegacy p = .known (p.getD "") := by
  refine ⟨rfl, rfl, rfl, fun s => rfl, rfl⟩

/-- C16: `StringSliceFromFramework` gives the nil slice for the null and for
the unknown String, and for every known String the slice of length one whose
element is `StringFromFramework` of it, the pointer to its value. -/
theorem StringSliceFromFramework_cases :
    StringSliceFromFramework .null = [] ∧
      StringSliceFromFramework .unknown = [] ∧
      ∀ s : String,
        StringSliceFromFramework (.known s) = [StringFromFramework (.known s)] ∧
        (StringSliceFromFramework (.known s)).length = 1 ∧
        StringFromFramework (.known s) = some s := by
  refine ⟨rfl, rfl, fun s => ⟨rfl, rfl, rfl⟩⟩

end flex

/-! ## The Timestream Write table data source -/

namespace timestreamwrite

open basetypes

/-- C17, the code at the failing input and at every other. The service holds
the table `t1` of the database `db1`, and the data source is configured with
exactly these names. The schema declares `tags`, for which the struct
`dataSourceTableData` has no field, so `Config.Get` reports an error and `Read`
returns with it: the finder is never called and no state is written, for this
configuration and for every configuration, finder and quoting function. -/
theorem table_Read_fails_before_lookup :
    sampleFind "db1" "t1" = .ok sampleTable ∧
      "tags" ∈ dataSourceTableSchemaNames ∧ "tags" ∉ dataSourceTableDataTags ∧
      (∀ (quote : String → String) (find : String → String → Reply Table)
        (config : TableConfig),
        ∃ resp, dataSourceTable.Read quote find config = .ok resp ∧
          diag.HasError resp.Diagnostics = true ∧ resp.State = none ∧ resp.lookups = []) ∧
      ∀ quote : String → String,
        ∃ resp, dataSourceTable.Read quote sampleFind sampleTableConfig = .ok resp ∧
          diag.HasError resp.Diagnostics = true ∧ resp.State = none ∧ resp.lookups = [] := by
  have hall : ∀ (quote : String → String) (find : String → String → Reply Table)
      (config : TableConfig),
      ∃ resp, dataSourceTable.Read quote find config = .ok resp ∧
        diag.HasError resp.Diagnostics = true ∧ resp.State = none ∧ resp.lookups = [] := by
    intro quote find config
    have hget : (tfsdk.ConfigGet dataSourceTableSchemaNames dataSourceTableDataTags
        config.decoded dataSourceTableDataZero).2 =
        [{ severity := .Error
           summary := .text "Value Conversion Error"
           detail := "mismatch between struct and object" }] := by
      have hno : ¬ ((∀ n ∈ dataSourceTableSchemaNames, n ∈ dataSourceTableDataTags) ∧
          (∀ n ∈ dataSourceTableDataTags, n ∈ dataSourceTableSchemaNames)) := by
        decide
      simp only [tfsdk.ConfigGet, hno, if_false]
    refine ⟨{ Diagnostics :=
                [{ severity := .Error
                   summary := .text "Value Conversion Error"
                   detail := "mismatch between struct and object" }]
              State := none, lookups := [] }, ?_, rfl, rfl, rfl⟩
    unfold dataSourceTable.Read
    simp only [hget]
    rfl
  exact ⟨by decide, by decide, by decide, hall, fun quote => hall quote sampleFind sampleTableConfig⟩

/-- The database data source fails in the same way: its schema declares `tags`
as well, `dataSourceDatabaseData` has no field for it, and `Read` returns with
the error of `Config.Get` before `findDatabaseByName` is called. -/
theorem database_Read_fails_before_lookup (quote : String → String)
    (find : String → Reply Database) (config : DatabaseConfig) :
    ∃ resp, dataSourceDatabase.Read quote find config = .ok resp ∧
      diag.HasError resp.Diagnostics = true ∧ resp.State = none ∧ resp.lookups = [] := by
  have hget : (tfsdk.ConfigGet dataSourceDatabaseSchemaNames dataSourceDatabaseDataTags
      config.decoded dataSourceDatabaseDataZero).2 =
      [{ severity := .Error
         summary := .text "Value Conversion Error"
         detail := "mismatch between struct and object" }] := by
    have hno : ¬ ((∀ n ∈ dataSourceDatabaseSchemaNames, n ∈ dataSourceDatabaseDataTags) ∧
        (∀ n ∈ dataSourceDatabaseDataTags, n ∈ dataSourceDatabaseSchemaNames)) := by
      decide
    simp only [tfsdk.ConfigGet, hno, if_false]
  refine ⟨{ Diagnostics :=
              [{ severity := .Error
                 summary := .text "Value Conversion Error"
                 detail := "mismatch between struct and object" }]
            State := none, lookups := [] }, ?_, rfl, rfl, rfl⟩
  unfold dataSourceDatabase.Read
  simp only [hget]
  rfl

end timestreamwrite

/-! ## Lookup errors during a wait -/

namespace retry

/-- Probes that make the waiter go on, followed by a probe that settles the
wait whatever was observed before, settle it at that probe, when the budget
allows; `Q` is what is known of the result. -/
theorem waitLoop_settles_any (P : WaitPolicy) (spec : WaitSpec) (t : Timed) (rest : List Timed)
    (out : PollOutcome) (Q : ReconciliationResult → Prop) (ht : t.outcome = some out)
    (hdone : ∀ last, ∃ r, classifyOutcome P spec last out = .done r ∧ Q r) :
    ∀ (pre : List Timed) (first : Bool) (elapsed : Nat) (last : Option ObservedState),
      (∀ p ∈ pre, goesOn P spec p.outcome = true) →
      (first = true ∨ elapsed ≤ spec.timeout) →
      (pre = [] ∨ elapsed + timeSpent spec (pre.map (fun p => p.latency)) ≤ spec.timeout) →
      ∃ r, waitLoop P spec (pre ++ t :: rest) first elapsed last = .ok (r, pre.length + 1) ∧
        Q r := by
  intro pre
  induction pre with
  | nil =>
    intro first elapsed last _ hfirst _
    have hcheck : ¬ (first = false ∧ spec.timeout < elapsed) := by
      rintro ⟨hf, hlt⟩
      rcases hfirst with h | h
      · simp [hf] at h
      · omega
    obtain ⟨r, hr, hq⟩ := hdone last
    exact ⟨r, by simp [waitLoop, hcheck, ht, hr], hq⟩
  | cons p pre ih =>
    intro first elapsed last hpre hfirst htime
    have hcheck : ¬ (first = false ∧ spec.timeout < elapsed) := by
      rintro ⟨hf, hlt⟩
      rcases hfirst with h | h
      · simp [hf] at h
      · omega
    have hp : goesOn P spec p.outcome = true := hpre p (List.mem_cons_self _ _)
    have htime' : elapsed + (p.latency + spec.interval +
        timeSpent spec (pre.map (fun p => p.latency))) ≤ spec.timeout := by
      rcases htime with h | h
      · simp at h
      · simpa [timeSpent_cons] using h
    cases hout : p.outcome with
    | none => simp [goesOn, hout] at hp
    | some o =>
      rw [hout] at hp
      obtain ⟨l, hl⟩ := classifyOutcome_again_any P spec o hp last
      obtain ⟨r, hrec, hq⟩ := ih false (elapsed + p.latency + spec.interval) l
        (fun q hq => hpre q (List.mem_cons_of_mem _ hq))
        (Or.inr (by omega)) (Or.inr (by omega))
      exact ⟨r, by simp [waitLoop, hcheck, hout, hl, hrec], hq⟩

end retry

namespace batch

open retry

theorem probeOutcome_lookupFails (sn : String) (p : Probe) (e : GoError)
    (h : p.lookupFails sn e) : probeOutcome sn p = some (.ProbeError e) := by
  unfold Probe.lookupFails at h
  cases hf : findJobQueueByNameReply sn p.reply with
  | mk q err =>
    rw [hf] at h
    simp at h
    subst h
    simp [probeOutcome, jobQueueRefreshStatusFunc, hf, Refreshed.toPollOutcome]

/-- Without an error classifier, a wait ends at the first probe whose lookup
fails, with the error of the lookup. -/
theorem wait_lookup_error (conf : StateChangeConf) (sn : String) (conn : Conn)
    (pre : List Probe) (t : Probe) (rest : List Probe) (e : GoError)
    (hscript : conn.describeJobQueues = pre ++ t :: rest)
    (hpre : ∀ p ∈ pre, goesOn WaitPolicy.strict conf.toWaitSpec (probeOutcome sn p) = true)
    (ht : t.lookupFails sn e)
    (htime : dueInTime conf.toWaitSpec (latencies pre)) :
    ∃ o, WaitForStateContext WaitPolicy.strict conf (jobQueueRefreshStatusFunc sn) conn =
      .ok ((o, some e), conn.afterProbes sn (pre.length + 1) rest) := by
  have hw := waitLoop_settles_any WaitPolicy.strict conf.toWaitSpec
    { latency := t.latency, outcome := probeOutcome sn t }
    (rest.map (fun p => { latency := p.latency, outcome := probeOutcome sn p }))
    (.ProbeError e) (fun r => ∃ last, r = .Failed e .FatalProbeError last)
    (probeOutcome_lookupFails sn t e ht)
    (fun last => ⟨.Failed e .FatalProbeError last, rfl, last, rfl⟩)
    (pre.map (fun p => { latency := p.latency, outcome := probeOutcome sn p }))
    true conf.toWaitSpec.initialDelay none
    (by
      intro p hp
      obtain ⟨p0, hp0, rfl⟩ := List.mem_map.mp hp
      exact hpre p0 hp0)
    (Or.inl rfl)
    (by
      rcases htime with h | h
      · left
        simpa [latencies] using h
      · right
        simpa [latencies, List.map_map, Function.comp] using h)
  obtain ⟨r, hr, last, rfl⟩ := hw
  refine ⟨last.bind (fun o => o.object), ?_⟩
  unfold WaitForStateContext Wait
  rw [probes_eq_map, hscript, List.map_append, List.map_cons, hr]
  simp [Conn.afterProbes, jobQueueRefreshStatusFunc, ReconciliationResult.toGo]

end batch

namespace batch

open retry

/-- C5, at a concrete input: the queue is seen `CREATING`, then the lookup is
throttled, and the third probe would find the queue `VALID`. With no error
classifier at hand, `waitJobQueueCreated` returns the throttling error at the
second probe; the third probe is never made. -/
theorem lookup_error_is_returned_not_retried :
    ∃ o, waitJobQueueCreated WaitPolicy.strict
        (sampleConn [] [] [sampleProbe JQStatusCreating, failedProbe "ThrottlingException",
          sampleProbe JQStatusValid]) "q" (10 * time.Minute) =
      .ok ((o, some (.api "ThrottlingException")),
        (sampleConn [] [] [sampleProbe JQStatusCreating, failedProbe "ThrottlingException",
          sampleProbe JQStatusValid]).afterProbes "q" 2 [sampleProbe JQStatusValid]) :=
  ⟨some (sampleQueue JQStatusCreating), by decide⟩

/-- C5, amended: the job queue code hands the waiter no error classifier, and
`jobQueueRefreshStatusFunc` returns the error of a failed lookup as it is. So
in each of its waits (`waitJobQueueCreated`, `waitJobQueueUpdated`,
`waitJobQueueDeleted` and the wait inside `disableJobQueue`), after any number
of pending probes, the first probe whose lookup fails ends the wait with exactly
the error of that lookup, whatever its kind; the probe is not counted as
pending and the rest of the script is untouched, so no later probe is made. -/
theorem lookup_error_ends_wait (conn : Conn) (id : String) (timeout : Nat)
    (pre : List Probe) (t : Probe) (rest : List Probe) (e : GoError)
    (hscript : conn.describeJobQueues = pre ++ t :: rest)
    (ht : t.lookupFails id e) :
    ((∀ p ∈ pre, p.observesStatusIn (waitJobQueueCreatedConf timeout).Pending = true) →
      dueInTime (waitJobQueueCreatedConf timeout).toWaitSpec (latencies pre) →
      ∃ o, waitJobQueueCreated WaitPolicy.strict conn id timeout =
        .ok ((o, some e), conn.afterProbes id (pre.length + 1) rest)) ∧
    ((∀ p ∈ pre, p.observesStatusIn (waitJobQueueUpdatedConf timeout).Pending = true) →
      dueInTime (waitJobQueueUpdatedConf timeout).toWaitSpec (latencies pre) →
      ∃ o, waitJobQueueUpdated WaitPolicy.strict conn id timeout =
        .ok ((o, some e), conn.afterProbes id (pre.length + 1) rest)) ∧
    ((∀ p ∈ pre, p.observesStatusIn (waitJobQueueDeletedConf timeout).Pending = true) →
      dueInTime (waitJobQueueDeletedConf timeout).toWaitSpec (latencies pre) →
      ∃ o, waitJobQueueDeleted WaitPolicy.strict conn id timeout =
        .ok ((o, some e), conn.afterProbes id (pre.length + 1) rest)) ∧
    (∀ us : List (Option GoError), conn.updateJobQueue = none :: us →
      (∀ p ∈ pre, p.observesStatusIn (disableJobQueueConf timeout).Pending = true) →
      dueInTime (disableJobQueueConf timeout).toWaitSpec (latencies pre) →
      disableJobQueue WaitPolicy.strict conn id timeout =
        .ok (some e,
          { conn with
            updateJobQueue := us
            describeJobQueues := rest
            calls := conn.calls ++ [.UpdateJobQueue (disableInput id)] ++
              List.replicate (pre.length + 1) (.DescribeJobQueues (describeOpts id)) })) := by
  refine ⟨?_, ?_, ?_, ?_⟩
  · intro hpre htime
    obtain ⟨o, ho⟩ := wait_lookup_error _ id conn pre t rest e hscript
      (fun p h => goesOn_pending _ _ id p (created_disjoint timeout) (hpre p h)) ht htime
    refine ⟨(assertJobQueueDetail (o, some e)).1, ?_⟩
    unfold waitJobQueueCreated
    rw [ho]
    have h2 := assertJobQueueDetail_err (o, some e)
    simp only [Run.ok.injEq, Prod.mk.injEq, and_true]
    exact Prod.ext rfl h2
  · intro hpre htime
    obtain ⟨o, ho⟩ := wait_lookup_error _ id conn pre t rest e hscript
      (fun p h => goesOn_pending _ _ id p (updated_disjoint timeout) (hpre p h)) ht htime
    refine ⟨(assertJobQueueDetail (o, some e)).1, ?_⟩
    unfold waitJobQueueUpdated
    rw [ho]
    have h2 := assertJobQueueDetail_err (o, some e)
    simp only [Run.ok.injEq, Prod.mk.injEq, and_true]
    exact Prod.ext rfl h2
  · intro hpre htime
    obtain ⟨o, ho⟩ := wait_lookup_error _ id conn pre t rest e hscript
      (fun p h => goesOn_pending _ _ id p (deleted_disjoint timeout) (hpre p h)) ht htime
    refine ⟨(assertJobQueueDetail (o, some e)).1, ?_⟩
    unfold waitJobQueueDeleted
    rw [ho]
    have h2 := assertJobQueueDetail_err (o, some e)
    simp only [Run.ok.injEq, Prod.mk.injEq, and_true]
    exact Prod.ext rfl h2
  · intro us hus hpre htime
    obtain ⟨o, ho⟩ := wait_lookup_error (disableJobQueueConf timeout) id
      { conn with
        updateJobQueue := us
        calls := conn.calls ++ [.UpdateJobQueue (disableInput id)] }
      pre t rest e hscript
      (fun p h => goesOn_pending _ _ id p (disable_disjoint timeout) (hpre p h)) ht htime
    unfold disableJobQueue
    simp only [Conn.UpdateJobQueueWithContext, hus]
    rw [ho]
    simp [Conn.afterProbes]

/-- C5 amended, on the sequence `[CREATING, throttled, VALID]`. -/
theorem lookup_error_ends_wait_witness :
    ∃ o, waitJobQueueCreated WaitPolicy.strict
        (sampleConn [] [] [sampleProbe JQStatusCreating, failedProbe "ThrottlingException",
          sampleProbe JQStatusValid]) "q" (10 * time.Minute) =
      .ok ((o, some (.api "ThrottlingException")),
        (sampleConn [] [] [sampleProbe JQStatusCreating, failedProbe "ThrottlingException",
          sampleProbe JQStatusValid]).afterProbes "q" 2 [sampleProbe JQStatusValid]) :=
  (lookup_error_ends_wait
    (sampleConn [] [] [sampleProbe JQStatusCreating, failedProbe "ThrottlingException",
      sampleProbe JQStatusValid]) "q" (10 * time.Minute)
    [sampleProbe JQStatusCreating] (failedProbe "ThrottlingException")
    [sampleProbe JQStatusValid] (.api "ThrottlingException") rfl (by decide)).1
    (by decide) (by decide)

end batch
